import Mathlib

/-!
LBaaS v2 result extraction and paging (gophercloud).

A shallow embedding of
`openstack/networking/v2/extensions/lbaas_v2/loadbalancers/results.go` and
`openstack/networking/v2/extensions/lbaas_v2/pools/results.go`.

Both files hand an untyped response body to `mapstructure.Decode` together with a
pointer to a Go struct.  The reflection-driven decoder is specialised here to the
struct types the two files declare: every Go struct is a Lean structure, every
decoder routine (`decodeString`, `decodeInt`, `decodeSlice`, ...) is a Lean function,
and a Go result pair `(T, error)` is a Lean pair `T × Option GoError`.  A `nil` pointer
is `none`, a slice is a list (the `nil` slice is the empty list), and a
`map[string]interface{}` is its list of entries.

The calls to `fmt.Println` and `spew.Dump` in the sources only write to standard output
and are left out.
-/

set_option autoImplicit false

namespace Gophercloud

/-! ## Dynamic values -/

/-- The value `json.Unmarshal` stores in an `interface{}`: `nil`, `bool`, `float64`,
`string`, `[]interface{}` or `map[string]interface{}`.  A number is the exact value of
the `float64`.  An object is its list of entries in `MapKeys` order; a Go map holds a
key once, and `MapIndex` on the list takes the first entry with that key. -/
inductive JSON where
  | null : JSON
  | bool (b : Bool) : JSON
  | number (q : ℚ) : JSON
  | string (s : String) : JSON
  | array (xs : List JSON) : JSON
  | object (kvs : List (String × JSON)) : JSON

/-- The `Body interface{}` of a `gophercloud.Result`: a parsed JSON value (`nil` when the
body is absent) or the raw `[]byte` of a response that was not parsed. -/
inductive Body where
  | parsed (j : JSON) : Body
  | raw (bytes : List Nat) : Body

/-- Go `error` values.  `other` is any error made outside the decoder (the transport
failure kept in `Result.Err`); `decode` is a mapstructure error and lists the names of
the values that could not be decoded. -/
inductive GoError where
  | other (msg : String) : GoError
  | decode (names : List String) : GoError
deriving DecidableEq

/-- Modelled from the spec: the struct `gophercloud.Result` is declared in the repository's
root package, which is not among the source files.  It is the spec's ResultEnvelope, an
optional failure beside the raw body, as `pagination/http.go` fills it: `Body`, `Header`
and the deferred `Err`. -/
structure Result where
  Body : Body
  Header : List (String × List String)
  Err : Option GoError

/-- The struct `pagination.PageResult` of `pagination/http.go`: a `Result` and the URL
of the request. -/
structure PageResult where
  Result : Result
  URL : String

/-- Modelled from the spec: the struct `gophercloud.Link` is declared in the repository's
root package, which is not among the source files.  It is an entry of the spec's link
array, `{"href": "...", "rel": "next"|"previous"}`: the target URL under the key `href`
and the relation label under the key `rel`. -/
structure Link where
  Href : String
  Rel : String
deriving DecidableEq

end Gophercloud

/-! ## The decoder of `github.com/mitchellh/mapstructure`

Both `results.go` files import the library `github.com/mitchellh/mapstructure` and call
`mapstructure.Decode`.  The library is a dependency outside the repository; the routines
below follow its source file `mapstructure.go` with the default configuration of
`Decode` (no `WeaklyTypedInput`, no `ErrorUnused`, no hook, tag name `mapstructure`).
An error is kept as the list of the names of the values that failed; the text of the
messages is left out.  Where Go ranges over a map the entries are taken in list order.
-/

namespace Mapstructure

open Gophercloud

/-- One step of `unicode.SimpleFold` towards a canonical rune, for the orbits that hold
an ASCII letter: `A`-`Z` go to `a`-`z`, the Kelvin sign U+212A goes to `k` and the long s
U+017F goes to `s`.  Other runes are left alone. -/
def foldRune (c : Char) : Char :=
  if 65 ≤ c.toNat ∧ c.toNat ≤ 90 then Char.ofNat (c.toNat + 32)
  else if c.toNat = 0x212A then Char.ofNat 107
  else if c.toNat = 0x017F then Char.ofNat 115
  else c

/-- The test `strings.EqualFold(s, t)`, exact whenever one of the two strings is ASCII,
which every field name and tag of this program is. -/
def equalFold (s t : String) : Bool :=
  s.toList.map foldRune == t.toList.map foldRune

/-- The key search of `decodeStruct`: `dataVal.MapIndex(fieldName)` first; when that key
is missing, the first key of the map that is equal to the field name under
`strings.EqualFold`; `none` when no key matches (the field is then skipped). -/
def lookupField (kvs : List (String × JSON)) (fieldName : String) : Option JSON :=
  match kvs.lookup fieldName with
  | some v => some v
  | none => (kvs.find? (fun kv => equalFold kv.1 fieldName)).map Prod.snd

/-- The method `Decoder.decode`: `nil` data sets nothing and is no error, so the target
keeps its zero value; other data goes to the routine chosen by the kind of the target. -/
def decode {α : Type} (zero : α) (byKind : String → JSON → α × List String)
    (name : String) : JSON → α × List String
  | .null => (zero, [])
  | data => byKind name data

/-- The routine `decodeString` without `WeaklyTypedInput`: only a string converts. -/
def decodeString (name : String) : JSON → String × List String
  | .string s => (s, [])
  | _ => ("", [name])

/-- The routine `decodeBool` without `WeaklyTypedInput`: only a bool converts. -/
def decodeBool (name : String) : JSON → Bool × List String
  | .bool b => (b, [])
  | _ => (false, [name])

/-- The Go conversion `int64(f)` of a `float64`: the fractional part is discarded
(truncation towards zero).  Go leaves the result for a value outside the `int64` range
to the implementation; the amd64 result `-2^63` is taken here. -/
def toInt64 (q : ℚ) : Int :=
  let t := Int.tdiv q.num q.den
  if -(2 : Int) ^ 63 ≤ t ∧ t < (2 : Int) ^ 63 then t else -(2 : Int) ^ 63

/-- The routine `decodeInt` without `WeaklyTypedInput`: data of a float kind is stored
as `int64(dataVal.Float())`; data of any other kind JSON can produce is an error. -/
def decodeInt (name : String) : JSON → Int × List String
  | .number q => (toInt64 q, [])
  | _ => (0, [name])

/-- The routine `decodeBasic` for a target of type `interface{}`: every value is
assignable and is stored as it is. -/
def decodeBasic (_name : String) (data : JSON) : JSON × List String :=
  (data, [])

/-- The loop of `decodeSlice`: element `i` is decoded under the name `name[i]` into a
fresh element, and the errors are accumulated. -/
def decodeElems {α : Type} (zero : α) (byKind : String → JSON → α × List String)
    (name : String) : Nat → List JSON → List α × List String
  | _, [] => ([], [])
  | i, x :: xs =>
    let r := decode zero byKind (name ++ "[" ++ toString i ++ "]") x
    let rs := decodeElems zero byKind name (i + 1) xs
    (r.1 :: rs.1, r.2 ++ rs.2)

/-- The routine `decodeSlice`: data that is no array is an error; for an array the slice
that was built is stored even when elements failed, and the errors are returned. -/
def decodeSlice {α : Type} (zero : α) (byKind : String → JSON → α × List String)
    (name : String) : JSON → List α × List String
  | .array xs => decodeElems zero byKind name 0 xs
  | _ => ([], [name])

/-- One round of the loop of `decodeMap` for the key `k`: the key is decoded into a
string and the value `MapIndex(k)` into an `interface{}`, both under the name `name[k]`;
an error skips the entry, otherwise the pair goes into the new map. -/
def decodeMapEntry (name : String) (kvs : List (String × JSON)) (k : String) :
    Option (String × JSON) × List String :=
  let fieldName := name ++ "[" ++ k ++ "]"
  let currentKey := decode "" decodeString fieldName (JSON.string k)
  if currentKey.2 ≠ [] then (none, currentKey.2)
  else
    let currentVal := decode JSON.null decodeBasic fieldName ((kvs.lookup k).getD JSON.null)
    if currentVal.2 ≠ [] then (none, currentVal.2)
    else (some (currentKey.1, currentVal.1), [])

/-- The routine `decodeMap` for a target of type `map[string]interface{}`: data that is
no map is an error; for a map the loop runs over `MapKeys`, the map that was built is
stored, and the errors are returned. -/
def decodeMap (name : String) : JSON → List (String × JSON) × List String
  | .object kvs =>
    let rs := (kvs.map Prod.fst).map (decodeMapEntry name kvs)
    (rs.filterMap Prod.fst, (rs.map Prod.snd).flatten)
  | _ => ([], [name])

/-- The routine `decodePtr`: the pointee is decoded into a new value; on an error the
pointer is left `nil` and the error is returned, otherwise the pointer is set. -/
def decodePtr {α : Type} (zero : α) (byKind : String → JSON → α × List String)
    (name : String) (data : JSON) : Option α × List String :=
  let r := decode zero byKind name data
  if r.2 = [] then (some r.1, []) else (none, r.2)

/-- The name under which `decodeStruct` decodes a field: the field name at the root,
`name.fieldName` below it. -/
def qualify (name fieldName : String) : String :=
  if name = "" then fieldName else name ++ "." ++ fieldName

/-- One field of `decodeStruct`: a field with no matching key is skipped and keeps its
zero value; a matched value is decoded under the qualified name. -/
def decodeField {α : Type} (zero : α) (byKind : String → JSON → α × List String)
    (kvs : List (String × JSON)) (name fieldName : String) : α × List String :=
  match lookupField kvs fieldName with
  | none => (zero, [])
  | some v => decode zero byKind (qualify name fieldName) v

/-- The error value returned by `Decode`: `nil` when no error was accumulated. -/
def toError (names : List String) : Option GoError :=
  if names = [] then none else some (GoError.decode names)

/-- The function `mapstructure.Decode(m, &result)` for a result of struct type: raw bytes
are no map and are an error; a parsed body goes through `decode` with the root name
`""`. -/
def Decode {α : Type} (zero : α) (decodeStruct : String → JSON → α × List String) :
    Body → α × Option GoError
  | .raw _ => (zero, some (GoError.decode [""]))
  | .parsed j =>
    let r := decode zero decodeStruct "" j
    (r.1, toError r.2)

/-- The routine `decodeStruct` for a struct with a single field: data that is no map is
an error; for a map the field is looked up under `fieldName` and decoded. -/
def decodeWrapper {α : Type} (zero : α) (byKind : String → JSON → α × List String)
    (fieldName : String) (name : String) : JSON → α × List String
  | .object kvs => decodeField zero byKind kvs name fieldName
  | _ => (zero, [name])

/-- The routine `decodeStruct` for `gophercloud.Link`. -/
def decodeLink (name : String) : JSON → Link × List String
  | .object kvs =>
    let href := decodeField "" decodeString kvs name "href"
    let rel := decodeField "" decodeString kvs name "rel"
    ({ Href := href.1, Rel := rel.1 }, href.2 ++ rel.2)
  | _ => ({ Href := "", Rel := "" }, [name])

/-- Decoding into the local struct `resp` of the `NextPageURL` methods, whose only field
is `Links []gophercloud.Link` with the tag `linksKey`. -/
def decodeLinks (linksKey : String) (body : Body) : List Link × Option GoError :=
  Decode [] (decodeWrapper [] (decodeSlice { Href := "", Rel := "" } decodeLink) linksKey) body

end Mapstructure

namespace Gophercloud

/-- Modelled from the spec: `gophercloud.ExtractNextURL` is declared in the repository's
`results.go`, which is not among the source files.  The spec's link-array rule: find the
entry whose relation label equals `"next"` and take its target URL; with no such entry
there is no next page, which is no error.  The loop keeps the URL of the last such entry. -/
def ExtractNextURL (links : List Link) : String × Option GoError :=
  (links.foldl (fun url l => if l.Rel = "next" then l.Href else url) "", none)

/-- Modelled from the spec: the struct `pagination.LinkedPageBase` is declared in the
repository's `pagination` package outside the source files.  It is the spec's LinkedPage,
a Page that wraps the normalized body with the request URL and the response headers: a
struct that embeds a `PageResult`. -/
structure LinkedPageBase where
  PageResult : PageResult

/-- The promoted field `Body` of a page. -/
def LinkedPageBase.Body (p : LinkedPageBase) : Body :=
  p.PageResult.Result.Body

/-- A page that holds the given body, with an empty header, no error and no URL. -/
def pageOf (body : Body) : LinkedPageBase :=
  { PageResult := { Result := { Body := body, Header := [], Err := none }, URL := "" } }

end Gophercloud

/-! ## Package `loadbalancers` -/

namespace Loadbalancers

open Gophercloud Mapstructure

/-- The struct `LoadBalancer`; every field carries a `mapstructure` tag. -/
structure LoadBalancer where
  Description : String
  AdminStateUp : Bool
  TenantID : String
  ProvisioningStatus : String
  VipAddress : String
  VipSubnetId : String
  ID : String
  OperatingStatus : String
  Name : String
  Flavor : String
  Provider : String
deriving DecidableEq

/-- The zero value of `LoadBalancer`. -/
def LoadBalancer.zero : LoadBalancer :=
  { Description := "", AdminStateUp := false, TenantID := "", ProvisioningStatus := "",
    VipAddress := "", VipSubnetId := "", ID := "", OperatingStatus := "", Name := "",
    Flavor := "", Provider := "" }

/-- The routine `decodeStruct` for `LoadBalancer`. -/
def decodeLoadBalancer (name : String) : JSON → LoadBalancer × List String
  | .object kvs =>
    let description := decodeField "" decodeString kvs name "description"
    let adminStateUp := decodeField false decodeBool kvs name "admin_state_up"
    let tenantID := decodeField "" decodeString kvs name "tenant_id"
    let provisioningStatus := decodeField "" decodeString kvs name "provisioning_status"
    let vipAddress := decodeField "" decodeString kvs name "vip_address"
    let vipSubnetId := decodeField "" decodeString kvs name "vip_subnet_id"
    let id := decodeField "" decodeString kvs name "id"
    let operatingStatus := decodeField "" decodeString kvs name "operating_status"
    let nm := decodeField "" decodeString kvs name "name"
    let flavor := decodeField "" decodeString kvs name "flavor"
    let provider := decodeField "" decodeString kvs name "provider"
    ({ Description := description.1, AdminStateUp := adminStateUp.1, TenantID := tenantID.1,
       ProvisioningStatus := provisioningStatus.1, VipAddress := vipAddress.1,
       VipSubnetId := vipSubnetId.1, ID := id.1, OperatingStatus := operatingStatus.1,
       Name := nm.1, Flavor := flavor.1, Provider := provider.1 },
     description.2 ++ adminStateUp.2 ++ tenantID.2 ++ provisioningStatus.2 ++ vipAddress.2
       ++ vipSubnetId.2 ++ id.2 ++ operatingStatus.2 ++ nm.2 ++ flavor.2 ++ provider.2)
  | _ => (LoadBalancer.zero, [name])

/-- The struct `LoadbalancerPage`, which embeds `pagination.LinkedPageBase`. -/
structure LoadbalancerPage where
  LinkedPageBase : LinkedPageBase

/-- The method `LoadbalancerPage.NextPageURL`: the body is decoded into a struct whose
field `Links` has the tag `mapstructure:"loadbalancer_links"`; a decode error is returned
with the empty URL, otherwise the links go to `ExtractNextURL`. -/
def LoadbalancerPage.NextPageURL (p : LoadbalancerPage) : String × Option GoError :=
  let r := decodeLinks "loadbalancer_links" p.LinkedPageBase.Body
  match r.2 with
  | some err => ("", some err)
  | none => ExtractNextURL r.1

/-- The function `ExtractLoadbalancers`: the body is decoded into a struct whose field
`VIPs []LoadBalancer` has the tag `mapstructure:"loadbalancers"`; the slice and the error
of `Decode` are returned together. -/
def ExtractLoadbalancers (page : LoadbalancerPage) : List LoadBalancer × Option GoError :=
  Decode [] (decodeWrapper [] (decodeSlice LoadBalancer.zero decodeLoadBalancer) "loadbalancers")
    page.LinkedPageBase.Body

/-- The method `LoadbalancerPage.IsEmpty`: an error of `ExtractLoadbalancers` gives
`true, nil`; otherwise the page is empty when the slice has length zero. -/
def LoadbalancerPage.IsEmpty (p : LoadbalancerPage) : Bool × Option GoError :=
  let r := ExtractLoadbalancers p
  match r.2 with
  | some _ => (true, none)
  | none => (decide (r.1.length = 0), none)

/-- The struct `commonResult`, which embeds `gophercloud.Result`. -/
structure commonResult where
  Result : Result

/-- The method `commonResult.Extract`: a set `Err` is returned with a `nil` record;
otherwise the body is decoded into a struct whose field `LoadBalancer *LoadBalancer` has
the tag `mapstructure:"loadbalancer"`. -/
def commonResult.Extract (r : commonResult) : Option LoadBalancer × Option GoError :=
  match r.Result.Err with
  | some err => (none, some err)
  | none =>
    Decode none (decodeWrapper none (decodePtr LoadBalancer.zero decodeLoadBalancer) "loadbalancer")
      r.Result.Body

end Loadbalancers

/-! ## Package `pools` -/

namespace Pools

open Gophercloud Mapstructure

/-- The struct `SessionPersistence`, with tags `type` and `cookie_name`. -/
structure SessionPersistence where
  Type' : String
  CookieName : String
deriving DecidableEq

/-- The struct `Pool`.  `Protocol`, `Description`, `Name`, `ID` and `Provider` carry no
tag and are looked up under their field names. -/
structure Pool where
  LBMethod : String
  Protocol : String
  Description : String
  Listeners : List (List (String × JSON))
  Members : List (List (String × JSON))
  MonitorIDs : List String
  SubnetID : String
  TenantID : String
  AdminStateUp : Bool
  Name : String
  ID : String
  Loadbalancers : List (List (String × JSON))
  Persistence : SessionPersistence
  Provider : String

/-- The zero value of `Pool`. -/
def Pool.zero : Pool :=
  { LBMethod := "", Protocol := "", Description := "", Listeners := [], Members := [],
    MonitorIDs := [], SubnetID := "", TenantID := "", AdminStateUp := false, Name := "",
    ID := "", Loadbalancers := [], Persistence := { Type' := "", CookieName := "" },
    Provider := "" }

/-- The routine `decodeStruct` for `SessionPersistence`. -/
def decodeSessionPersistence (name : String) : JSON → SessionPersistence × List String
  | .object kvs =>
    let typ := decodeField "" decodeString kvs name "type"
    let cookieName := decodeField "" decodeString kvs name "cookie_name"
    ({ Type' := typ.1, CookieName := cookieName.1 }, typ.2 ++ cookieName.2)
  | _ => ({ Type' := "", CookieName := "" }, [name])

/-- The routine `decodeStruct` for `Pool`. -/
def decodePool (name : String) : JSON → Pool × List String
  | .object kvs =>
    let lbMethod := decodeField "" decodeString kvs name "lb_algorithm"
    let protocol := decodeField "" decodeString kvs name "Protocol"
    let description := decodeField "" decodeString kvs name "Description"
    let listeners := decodeField [] (decodeSlice [] decodeMap) kvs name "listeners"
    let members := decodeField [] (decodeSlice [] decodeMap) kvs name "members"
    let monitorIDs := decodeField [] (decodeSlice "" decodeString) kvs name "health_monitors"
    let subnetID := decodeField "" decodeString kvs name "subnet_id"
    let tenantID := decodeField "" decodeString kvs name "tenant_id"
    let adminStateUp := decodeField false decodeBool kvs name "admin_state_up"
    let nm := decodeField "" decodeString kvs name "Name"
    let id := decodeField "" decodeString kvs name "ID"
    let loadbalancers := decodeField [] (decodeSlice [] decodeMap) kvs name "loadbalancers"
    let persistence := decodeField { Type' := "", CookieName := "" } decodeSessionPersistence
      kvs name "session_persistence"
    let provider := decodeField "" decodeString kvs name "Provider"
    ({ LBMethod := lbMethod.1, Protocol := protocol.1, Description := description.1,
       Listeners := listeners.1, Members := members.1, MonitorIDs := monitorIDs.1,
       SubnetID := subnetID.1, TenantID := tenantID.1, AdminStateUp := adminStateUp.1,
       Name := nm.1, ID := id.1, Loadbalancers := loadbalancers.1,
       Persistence := persistence.1, Provider := provider.1 },
     lbMethod.2 ++ protocol.2 ++ description.2 ++ listeners.2 ++ members.2 ++ monitorIDs.2
       ++ subnetID.2 ++ tenantID.2 ++ adminStateUp.2 ++ nm.2 ++ id.2 ++ loadbalancers.2
       ++ persistence.2 ++ provider.2)
  | _ => (Pool.zero, [name])

/-- The struct `PoolPage`, which embeds `pagination.LinkedPageBase`. -/
structure PoolPage where
  LinkedPageBase : LinkedPageBase

/-- The method `PoolPage.NextPageURL`: the field `Links` has the tag
`mapstructure:"pools_links"`. -/
def PoolPage.NextPageURL (p : PoolPage) : String × Option GoError :=
  let r := decodeLinks "pools_links" p.LinkedPageBase.Body
  match r.2 with
  | some err => ("", some err)
  | none => ExtractNextURL r.1

/-- The function `ExtractPools`: the field `Pools []Pool` has the tag
`mapstructure:"pools"`. -/
def ExtractPools (page : PoolPage) : List Pool × Option GoError :=
  Decode [] (decodeWrapper [] (decodeSlice Pool.zero decodePool) "pools")
    page.LinkedPageBase.Body

/-- The method `PoolPage.IsEmpty`: an error of `ExtractPools` gives `true, nil`. -/
def PoolPage.IsEmpty (p : PoolPage) : Bool × Option GoError :=
  let r := ExtractPools p
  match r.2 with
  | some _ => (true, none)
  | none => (decide (r.1.length = 0), none)

/-- The struct `commonResult`, which embeds `gophercloud.Result`. -/
structure commonResult where
  Result : Result

/-- The method `commonResult.Extract`: a set `Err` is returned with a `nil` record;
otherwise the body is decoded into a struct whose field `Pool *Pool` has only a `json`
tag, so that mapstructure looks it up under the field name `Pool`. -/
def commonResult.Extract (r : commonResult) : Option Pool × Option GoError :=
  match r.Result.Err with
  | some err => (none, some err)
  | none => Decode none (decodeWrapper none (decodePtr Pool.zero decodePool) "Pool") r.Result.Body

/-- The struct `Member`.  `Address` and `ID` carry no tag. -/
structure Member where
  Name : String
  Weight : Int
  AdminStateUp : Bool
  TenantID : String
  SubnetID : String
  PoolID : String
  Address : String
  ProtocolPort : Int
  ID : String
deriving DecidableEq

/-- The zero value of `Member`. -/
def Member.zero : Member :=
  { Name := "", Weight := 0, AdminStateUp := false, TenantID := "", SubnetID := "",
    PoolID := "", Address := "", ProtocolPort := 0, ID := "" }

/-- The routine `decodeStruct` for `Member`. -/
def decodeMember (name : String) : JSON → Member × List String
  | .object kvs =>
    let nm := decodeField "" decodeString kvs name "name"
    let weight := decodeField 0 decodeInt kvs name "weight"
    let adminStateUp := decodeField false decodeBool kvs name "admin_state_up"
    let tenantID := decodeField "" decodeString kvs name "tenant_id"
    let subnetID := decodeField "" decodeString kvs name "subnet_id"
    let poolID := decodeField "" decodeString kvs name "pool_id"
    let address := decodeField "" decodeString kvs name "Address"
    let protocolPort := decodeField 0 decodeInt kvs name "protocol_port"
    let id := decodeField "" decodeString kvs name "ID"
    ({ Name := nm.1, Weight := weight.1, AdminStateUp := adminStateUp.1,
       TenantID := tenantID.1, SubnetID := subnetID.1, PoolID := poolID.1,
       Address := address.1, ProtocolPort := protocolPort.1, ID := id.1 },
     nm.2 ++ weight.2 ++ adminStateUp.2 ++ tenantID.2 ++ subnetID.2 ++ poolID.2
       ++ address.2 ++ protocolPort.2 ++ id.2)
  | _ => (Member.zero, [name])

/-- The struct `MemberPage`, which embeds `pagination.LinkedPageBase`. -/
structure MemberPage where
  LinkedPageBase : LinkedPageBase

/-- The method `MemberPage.NextPageURL`: the field `Links` has the tag
`mapstructure:"pools_links"`. -/
def MemberPage.NextPageURL (p : MemberPage) : String × Option GoError :=
  let r := decodeLinks "pools_links" p.LinkedPageBase.Body
  match r.2 with
  | some err => ("", some err)
  | none => ExtractNextURL r.1

/-- The function `ExtractMembers`: the field `Member []Member` has the tag
`mapstructure:"members"`. -/
def ExtractMembers (page : MemberPage) : List Member × Option GoError :=
  Decode [] (decodeWrapper [] (decodeSlice Member.zero decodeMember) "members")
    page.LinkedPageBase.Body

/-- The method `MemberPage.IsEmpty`: an error of `ExtractMembers` gives `true, nil`. -/
def MemberPage.IsEmpty (p : MemberPage) : Bool × Option GoError :=
  let r := ExtractMembers p
  match r.2 with
  | some _ => (true, none)
  | none => (decide (r.1.length = 0), none)

/-- The struct `commonMemberResult`, which embeds `gophercloud.Result`. -/
structure commonMemberResult where
  Result : Result

/-- The method `commonMemberResult.ExtractMember`: a set `Err` is returned with a `nil`
record; otherwise the body is decoded into a struct whose field `Member *Member` has only
a `json` tag, so that mapstructure looks it up under the field name `Member`. -/
def commonMemberResult.ExtractMember (r : commonMemberResult) :
    Option Member × Option GoError :=
  match r.Result.Err with
  | some err => (none, some err)
  | none =>
    Decode none (decodeWrapper none (decodePtr Member.zero decodeMember) "Member") r.Result.Body

/-- The method `commonResult.ExtractMember`, the same body on the pool result type. -/
def commonResult.ExtractMember (r : commonResult) : Option Member × Option GoError :=
  match r.Result.Err with
  | some err => (none, some err)
  | none =>
    Decode none (decodeWrapper none (decodePtr Member.zero decodeMember) "Member") r.Result.Body

end Pools

/-! ## Package `pagination`

The function `PageResultFrom` of `pagination/http.go`.  It reads the body of an
`http.Response` with `ioutil.ReadAll` and parses it with `json.Unmarshal`; both belong to
the Go standard library.  The outcome of the read is a field of the response here, and
the parser is a parameter of `PageResultFrom`, a function from the bytes to a value or an
error.
-/

namespace Pagination

open Gophercloud

/-- The `http.Response` as far as `PageResultFrom` uses it: what
`ioutil.ReadAll(resp.Body)` returns (the bytes and the error), the header of the
response, and the URL of the request, `*resp.Request.URL`. -/
structure Response where
  ReadAll : List Nat × Option GoError
  Header : List (String × List String)
  RequestURL : String

/-- The method `http.Header.Get`: the first value stored under the key, and `""` when
there is none.  The key `Content-Type` is in canonical form already, and `net/http`
stores the header of a response under canonical keys. -/
def Get (header : List (String × List String)) (key : String) : String :=
  match header.lookup key with
  | some (v :: _) => v
  | _ => ""

/-- The function `strings.HasPrefix(s, pre)`: `s` begins with `pre`. -/
def HasPrefix (s pre : String) : Bool :=
  pre.toList.isPrefixOf s.toList

/-- The zero value `PageResult{}`: no body, no header, no error and the zero URL. -/
def emptyPageResult : PageResult :=
  { Result := { Body := Body.parsed JSON.null, Header := [], Err := none }, URL := "" }

/-- The function `PageResultFromParsed`: the given body with the header of the response
and the URL of its request. -/
def PageResultFromParsed (resp : Response) (body : Body) : PageResult :=
  { Result := { Body := body, Header := resp.Header, Err := none }, URL := resp.RequestURL }

/-- The function `PageResultFrom`, with `json.Unmarshal` as the parameter `unmarshal`: an
error of the read is returned with `PageResult{}`; when the `Content-Type` header begins
with `application/json` the bytes are parsed, and an error of the parser is returned with
`PageResult{}`; with another content type the bytes themselves are the body. -/
def PageResultFrom (unmarshal : List Nat → Except GoError JSON) (resp : Response) :
    PageResult × Option GoError :=
  match resp.ReadAll.2 with
  | some err => (emptyPageResult, some err)
  | none =>
    if HasPrefix (Get resp.Header "Content-Type") "application/json" then
      match unmarshal resp.ReadAll.1 with
      | .error err => (emptyPageResult, some err)
      | .ok parsedBody => (PageResultFromParsed resp (Body.parsed parsedBody), none)
    else (PageResultFromParsed resp (Body.raw resp.ReadAll.1), none)

end Pagination

/-! ## Wire shapes used in the statements -/

open Gophercloud Mapstructure

/-- A body holds no collection under `key`: it is absent (`nil`), or it is a mapping in
which the key search of the decoder finds no key for `key`, or finds `null` or a
zero-length sequence. -/
def noCollection (key : String) (body : Body) : Prop :=
  body = Body.parsed JSON.null
    ∨ ∃ kvs, body = Body.parsed (JSON.object kvs)
        ∧ (lookupField kvs key = none ∨ lookupField kvs key = some JSON.null
            ∨ lookupField kvs key = some (JSON.array []))

/-- The Go string a wire value stands for in a string field: the string itself, and the
zero value `""` when the key is missing or maps to `null`; a value of another kind
stands for no string. -/
def wireString : Option JSON → Option String
  | none => some ""
  | some .null => some ""
  | some (.string s) => some s
  | _ => none

/-- The Go bool a wire value stands for in a bool field, `false` when the key is missing
or maps to `null`. -/
def wireBool : Option JSON → Option Bool
  | none => some false
  | some .null => some false
  | some (.bool b) => some b
  | _ => none

/-- A wire entry of a link array that carries the link `l`: a mapping in which the
decoder finds `l.Href` for `href` and `l.Rel` for `rel`. -/
def isLinkEntry (x : JSON) (l : Link) : Prop :=
  ∃ o, x = JSON.object o ∧ wireString (lookupField o "href") = some l.Href
    ∧ wireString (lookupField o "rel") = some l.Rel


/-- The Go int a wire value stands for in an int field: `int64(f)` for a number, and the
zero value `0` when the key is missing or maps to `null`. -/
def wireInt : Option JSON → Option Int
  | none => some 0
  | some .null => some 0
  | some (.number q) => some (toInt64 q)
  | _ => none

/-- The record a member body stands for, following the field table of `Member`: every
declared field takes the value the decoder finds for its key, and the zero value when the
key is missing; there is no record when a found value has another kind than the field. -/
def memberOf (o : List (String × JSON)) : Option Pools.Member := do
  let nm ← wireString (lookupField o "name")
  let weight ← wireInt (lookupField o "weight")
  let adminStateUp ← wireBool (lookupField o "admin_state_up")
  let tenantID ← wireString (lookupField o "tenant_id")
  let subnetID ← wireString (lookupField o "subnet_id")
  let poolID ← wireString (lookupField o "pool_id")
  let address ← wireString (lookupField o "Address")
  let protocolPort ← wireInt (lookupField o "protocol_port")
  let id ← wireString (lookupField o "ID")
  pure { Name := nm, Weight := weight, AdminStateUp := adminStateUp, TenantID := tenantID,
         SubnetID := subnetID, PoolID := poolID, Address := address,
         ProtocolPort := protocolPort, ID := id }

/-- The values a wire array stands for, entry by entry; none when an entry stands for no
value. -/
def wireAll {α : Type} (f : JSON → Option α) : List JSON → Option (List α)
  | [] => some []
  | x :: xs =>
    match f x, wireAll f xs with
    | some a, some as => some (a :: as)
    | _, _ => none

/-- The stub a wire entry stands for in a reference list (`[]map[string]interface{}`):
the entries of the mapping as they are, every key once; the `nil` map for `null`. -/
def wireStub : JSON → Option (List (String × JSON))
  | .null => some []
  | .object kvs => if (kvs.map Prod.fst).Nodup then some kvs else none
  | _ => none

/-- The reference list a wire value stands for: the stubs of the array in wire order, and
the zero value when the key is missing or maps to `null`. -/
def wireStubs : Option JSON → Option (List (List (String × JSON)))
  | none => some []
  | some .null => some []
  | some (.array xs) => wireAll wireStub xs
  | _ => none

/-- The `[]string` a wire value stands for. -/
def wireStrings : Option JSON → Option (List String)
  | none => some []
  | some .null => some []
  | some (.array xs) => wireAll (fun x => wireString (some x)) xs
  | _ => none

/-- The `SessionPersistence` a wire value stands for. -/
def wirePersistence : Option JSON → Option Pools.SessionPersistence
  | none => some { Type' := "", CookieName := "" }
  | some .null => some { Type' := "", CookieName := "" }
  | some (.object o) => do
    let typ ← wireString (lookupField o "type")
    let cookieName ← wireString (lookupField o "cookie_name")
    pure { Type' := typ, CookieName := cookieName }
  | _ => none

/-- The record a pool body stands for, following the field table of `Pool`: every declared
field takes the value the decoder finds for its key, and the zero value when the key is
missing; there is no record when a found value has another kind than the field. -/
def poolOf (o : List (String × JSON)) : Option Pools.Pool := do
  let lbMethod ← wireString (lookupField o "lb_algorithm")
  let protocol ← wireString (lookupField o "Protocol")
  let description ← wireString (lookupField o "Description")
  let listeners ← wireStubs (lookupField o "listeners")
  let members ← wireStubs (lookupField o "members")
  let monitorIDs ← wireStrings (lookupField o "health_monitors")
  let subnetID ← wireString (lookupField o "subnet_id")
  let tenantID ← wireString (lookupField o "tenant_id")
  let adminStateUp ← wireBool (lookupField o "admin_state_up")
  let nm ← wireString (lookupField o "Name")
  let id ← wireString (lookupField o "ID")
  let loadbalancers ← wireStubs (lookupField o "loadbalancers")
  let persistence ← wirePersistence (lookupField o "session_persistence")
  let provider ← wireString (lookupField o "Provider")
  pure { LBMethod := lbMethod, Protocol := protocol, Description := description,
         Listeners := listeners, Members := members, MonitorIDs := monitorIDs,
         SubnetID := subnetID, TenantID := tenantID, AdminStateUp := adminStateUp,
         Name := nm, ID := id, Loadbalancers := loadbalancers, Persistence := persistence,
         Provider := provider }

/-- The wire keys of a pool body, one for every field of `Pool`. -/
def poolWireKeys : List String :=
  ["lb_algorithm", "protocol", "description", "listeners", "members", "health_monitors",
   "subnet_id", "tenant_id", "admin_state_up", "name", "id", "loadbalancers",
   "session_persistence", "provider"]

/-- The names under which `decodeStruct` looks up the fields of `Pool`: the `mapstructure`
tag, and the Go field name where there is no tag. -/
def poolFieldNames : List String :=
  ["lb_algorithm", "Protocol", "Description", "listeners", "members", "health_monitors",
   "subnet_id", "tenant_id", "admin_state_up", "Name", "ID", "loadbalancers",
   "session_persistence", "Provider"]

/-- A key that `Pool` does not declare: it is equal to no field name under case folding,
so the decoder matches it to no field. -/
def undeclaredByPool (k : String) : Bool :=
  poolFieldNames.all (fun f => !equalFold k f)

/-- Every key of a pool body is a wire key of `Pool` or is not declared by `Pool`. -/
def wireKeysOnly (o : List (String × JSON)) : Prop :=
  ∀ kv ∈ o, kv.1 ∈ poolWireKeys ∨ undeclaredByPool kv.1 = true

/-- A pool body without the keys that `Pool` does not declare. -/
def declaredOnly (o : List (String × JSON)) : List (String × JSON) :=
  o.filter (fun kv => decide (kv.1 ∈ poolWireKeys))

/-- What the round trip says about one pool body `m` and its record `p`: `ID`, `Name` and
`AdminStateUp` are the values of `id`, `name` and `admin_state_up` when present, and the
zero value when the key is omitted. -/
def roundTrip (m : List (String × JSON)) (p : Pools.Pool) : Prop :=
  (∀ s, m.lookup "id" = some (.string s) → p.ID = s)
  ∧ (m.lookup "id" = none → p.ID = "")
  ∧ (∀ s, m.lookup "name" = some (.string s) → p.Name = s)
  ∧ (m.lookup "name" = none → p.Name = "")
  ∧ (∀ b, m.lookup "admin_state_up" = some (.bool b) → p.AdminStateUp = b)
  ∧ (m.lookup "admin_state_up" = none → p.AdminStateUp = false)

/-- What stub preservation says about one pool body `m` and its record `p`: when
`members`, `listeners` or `loadbalancers` is a sequence of stub mappings, the field of the
record is that sequence of mappings, with the same length, the same order and, entry by
entry, the same key/value pairs. -/
def stubsPreserved (m : List (String × JSON)) (p : Pools.Pool) : Prop :=
  (∀ stubs, lookupField m "members" = some (.array (stubs.map JSON.object)) →
    p.Members = stubs)
  ∧ (∀ stubs, lookupField m "listeners" = some (.array (stubs.map JSON.object)) →
    p.Listeners = stubs)
  ∧ (∀ stubs, lookupField m "loadbalancers" = some (.array (stubs.map JSON.object)) →
    p.Loadbalancers = stubs)

/-! ## Example bodies -/

/-- A link array with a `previous` and a `next` entry. -/
def exampleLinkEntries : List JSON :=
  [.object [("href", .string "http://lb/pools1"), ("rel", .string "previous")],
   .object [("href", .string "http://lb/pools3"), ("rel", .string "next")]]

/-- A pool collection body `{"pools": [{"id": "p1"}], "pools_links": [...]}`. -/
def examplePoolsBody : List (String × JSON) :=
  [("pools", .array [.object [("id", .string "p1")]]),
   ("pools_links", .array exampleLinkEntries)]

/-- A member body whose `weight` is the fractional number `2.5`. -/
def exampleMember : List (String × JSON) :=
  [("id", .string "m1"), ("address", .string "10.0.0.5"),
   ("weight", .number ⟨5, 2, by decide, by decide⟩), ("protocol_port", .number 80)]

/-- The pool body `{"id": "p1", "name": "N", "admin_state_up": true}`. -/
def examplePool : List (String × JSON) :=
  [("id", .string "p1"), ("name", .string "N"), ("admin_state_up", .bool true)]

/-- A pool body with two member stubs, one listener stub and an undeclared key. -/
def exampleStubPool : List (String × JSON) :=
  [("id", .string "p2"),
   ("members", .array [.object [("id", .string "m1")], .object [("id", .string "m2")]]),
   ("listeners", .array [.object [("id", .string "l1")]]),
   ("operating_status", .string "ONLINE")]

/-- The record `exampleStubPool` stands for. -/
def exampleStubPoolRecord : Pools.Pool :=
  { Pools.Pool.zero with
    ID := "p2"
    Members := [[("id", .string "m1")], [("id", .string "m2")]]
    Listeners := [[("id", .string "l1")]] }

/-- A second pool body, with one member stub and one load balancer stub. -/
def exampleStubPool2 : List (String × JSON) :=
  [("id", .string "p3"),
   ("members", .array [.object [("id", .string "m3")]]),
   ("loadbalancers", .array [.object [("id", .string "lb1")]])]

/-- A pool body with two member stubs whose `name` is a number. -/
def exampleStubPoolBadName : List (String × JSON) :=
  [("id", .string "p1"),
   ("members", .array [.object [("id", .string "m1")], .object [("id", .string "m2")]]),
   ("name", .number 5)]

/-! ## Properties -/

/-- The slice built by `decodeSlice` has one element for every element of the data. -/
theorem decodeElems_length {α : Type} (zero : α) (byKind : String → JSON → α × List String)
    (name : String) (xs : List JSON) (i : Nat) :
    (decodeElems zero byKind name i xs).1.length = xs.length := by
  induction xs generalizing i with
  | nil => rfl
  | cons x xs ih => simp [decodeElems, ih]

/-- No accumulated name means no error. -/
theorem toError_eq_none (names : List String) : toError names = none ↔ names = [] := by
  unfold toError
  split <;> simp_all

/-- When a collection decodes to no record and no error: the body is absent, or it is a
mapping in which the wrapper field matches no key, or matches `null` or an empty array. -/
theorem decode_collection_empty {α : Type} (zero : α)
    (byKind : String → JSON → α × List String) (key : String) (body : Body) :
    ((Decode [] (decodeWrapper [] (decodeSlice zero byKind) key) body).2 = none
      ∧ (Decode [] (decodeWrapper [] (decodeSlice zero byKind) key) body).1.length = 0)
    ↔ (body = Body.parsed JSON.null
        ∨ ∃ kvs, body = Body.parsed (JSON.object kvs)
            ∧ (lookupField kvs key = none ∨ lookupField kvs key = some JSON.null
                ∨ lookupField kvs key = some (JSON.array []))) := by
  cases body with
  | raw bytes => simp [Decode]
  | parsed j =>
    cases j with
    | null => simp [Decode, decode, toError]
    | bool b => simp [Decode, decode, decodeWrapper, toError]
    | number q => simp [Decode, decode, decodeWrapper, toError]
    | string s => simp [Decode, decode, decodeWrapper, toError]
    | array xs => simp [Decode, decode, decodeWrapper, toError]
    | object kvs =>
      cases h : lookupField kvs key with
      | none => simp [Decode, decode, decodeWrapper, decodeField, toError, h]
      | some v =>
        cases v with
        | null => simp [Decode, decode, decodeWrapper, decodeField, toError, h]
        | bool b => simp [Decode, decode, decodeWrapper, decodeField, decodeSlice, toError, h]
        | number q => simp [Decode, decode, decodeWrapper, decodeField, decodeSlice, toError, h]
        | string s => simp [Decode, decode, decodeWrapper, decodeField, decodeSlice, toError, h]
        | object o => simp [Decode, decode, decodeWrapper, decodeField, decodeSlice, toError, h]
        | array xs =>
          cases xs with
          | nil => simp [Decode, decode, decodeWrapper, decodeField, decodeSlice, decodeElems, toError, h]
          | cons x xs =>
            simp [Decode, decode, decodeWrapper, decodeField, decodeSlice, decodeElems, h]

/-- The shared body of the three `IsEmpty` methods, in terms of the extract result. -/
theorem isEmpty_of_extract {α : Type} (r : List α × Option GoError) :
    (match r.2 with
      | some _ => ((true, none) : Bool × Option GoError)
      | none => (decide (r.1.length = 0), none)).2 = none
    ∧ ((match r.2 with
      | some _ => ((true, none) : Bool × Option GoError)
      | none => (decide (r.1.length = 0), none)).1 = true
        ↔ (r.2 ≠ none ∨ (r.2 = none ∧ r.1.length = 0))) := by
  rcases r with ⟨l, e⟩
  cases e <;> simp

/-- C1: when the failure `Err` of a result envelope is set, `Extract` of loadbalancers,
`Extract` and `ExtractMember` of pools and `ExtractMember` of the member result return no
record together with that same error, whatever the body is (absent, raw or malformed):
the body takes no part in the result. -/
theorem extract_propagates_failure (err : GoError) (body : Body)
    (header : List (String × List String)) :
    Loadbalancers.commonResult.Extract ⟨⟨body, header, some err⟩⟩ = (none, some err)
    ∧ Pools.commonResult.Extract ⟨⟨body, header, some err⟩⟩ = (none, some err)
    ∧ Pools.commonResult.ExtractMember ⟨⟨body, header, some err⟩⟩ = (none, some err)
    ∧ Pools.commonMemberResult.ExtractMember ⟨⟨body, header, some err⟩⟩ = (none, some err) :=
  ⟨rfl, rfl, rfl, rfl⟩

/-- C2, as stated, fails: a body whose collection key maps to a non-sequence
(`{"loadbalancers": "oops"}`), to a sequence with an entry that is no mapping
(`{"pools": [5]}`), or to a sequence with an entry that does not fit the record shape
(`{"members": [{"weight": "heavy"}]}`) is reported as empty, with no error. -/
theorem isEmpty_true_on_malformed_collection :
    Loadbalancers.LoadbalancerPage.IsEmpty
        ⟨pageOf (.parsed (.object [("loadbalancers", .string "oops")]))⟩ = (true, none)
    ∧ Pools.PoolPage.IsEmpty
        ⟨pageOf (.parsed (.object [("pools", .array [.number 5])]))⟩ = (true, none)
    ∧ Pools.MemberPage.IsEmpty
        ⟨pageOf (.parsed (.object
          [("members", .array [.object [("weight", .string "heavy")]])]))⟩ = (true, none) :=
  ⟨rfl, rfl, rfl⟩

/-- C2 (amended): `IsEmpty` of a load-balancer, pool or member page never returns an
error, and it returns `true` exactly when the collection extract returns an error (a body
that is no mapping, a collection value that is no sequence, an entry that does not fit the
record shape) or the body holds no collection: it is absent, or its collection key, as the
decoder finds it, is missing or maps to `null` or to a zero-length sequence. -/
theorem isEmpty_iff_error_or_no_collection (lp : Loadbalancers.LoadbalancerPage)
    (pp : Pools.PoolPage) (mp : Pools.MemberPage) :
    ((lp.IsEmpty).2 = none
      ∧ ((lp.IsEmpty).1 = true ↔
          (Loadbalancers.ExtractLoadbalancers lp).2 ≠ none
            ∨ noCollection "loadbalancers" lp.LinkedPageBase.Body))
    ∧ ((pp.IsEmpty).2 = none
      ∧ ((pp.IsEmpty).1 = true ↔
          (Pools.ExtractPools pp).2 ≠ none ∨ noCollection "pools" pp.LinkedPageBase.Body))
    ∧ ((mp.IsEmpty).2 = none
      ∧ ((mp.IsEmpty).1 = true ↔
          (Pools.ExtractMembers mp).2 ≠ none
            ∨ noCollection "members" mp.LinkedPageBase.Body)) := by
  refine ⟨⟨(isEmpty_of_extract _).1, ?_⟩, ⟨(isEmpty_of_extract _).1, ?_⟩,
    ⟨(isEmpty_of_extract _).1, ?_⟩⟩
  · unfold Loadbalancers.LoadbalancerPage.IsEmpty
    rw [(isEmpty_of_extract _).2, noCollection, ← decode_collection_empty
      Loadbalancers.LoadBalancer.zero Loadbalancers.decodeLoadBalancer]
    unfold Loadbalancers.ExtractLoadbalancers
    tauto
  · unfold Pools.PoolPage.IsEmpty
    rw [(isEmpty_of_extract _).2, noCollection, ← decode_collection_empty
      Pools.Pool.zero Pools.decodePool]
    unfold Pools.ExtractPools
    tauto
  · unfold Pools.MemberPage.IsEmpty
    rw [(isEmpty_of_extract _).2, noCollection, ← decode_collection_empty
      Pools.Member.zero Pools.decodeMember]
    unfold Pools.ExtractMembers
    tauto

/-- C3 fails on the code: for every body in the wire envelope form
`{"loadbalancers": lbs, "loadbalancers_links": links}` the method
`LoadbalancerPage.NextPageURL` returns the empty URL, whatever the links are: it reads
the key `loadbalancer_links`, which the envelope does not carry. -/
theorem loadbalancer_nextPageURL_ignores_links (lbs links : JSON) :
    Loadbalancers.LoadbalancerPage.NextPageURL
      ⟨pageOf (.parsed (.object [("loadbalancers", lbs), ("loadbalancers_links", links)]))⟩
      = ("", none) := by
  rfl

/-- C3 at a concrete page: the link array names `http://lb/page2` as the next page, and
`LoadbalancerPage.NextPageURL` returns the empty URL with no error. -/
theorem loadbalancer_nextPageURL_misses_next :
    Loadbalancers.LoadbalancerPage.NextPageURL
      ⟨pageOf (.parsed (.object
        [("loadbalancers", .array [.object [("id", .string "lb1")]]),
         ("loadbalancers_links", .array
            [.object [("href", .string "http://lb/page2"), ("rel", .string "next")]])]))⟩
      = ("", none) := by
  rfl

/-- C4 fails on the code: for every body in the wire envelope form
`{"members": ms, "members_links": links}` the method `MemberPage.NextPageURL` returns the
empty URL, whatever the links are: it reads the key `pools_links`. -/
theorem member_nextPageURL_ignores_links (ms links : JSON) :
    Pools.MemberPage.NextPageURL
      ⟨pageOf (.parsed (.object [("members", ms), ("members_links", links)]))⟩
      = ("", none) := by
  rfl

/-- C4 at a concrete page: the link array names `http://lb/members2` as the next page,
and `MemberPage.NextPageURL` returns the empty URL with no error. -/
theorem member_nextPageURL_misses_next :
    Pools.MemberPage.NextPageURL
      ⟨pageOf (.parsed (.object
        [("members", .array [.object [("id", .string "m1")]]),
         ("members_links", .array
            [.object [("href", .string "http://lb/members2"), ("rel", .string "next")]])]))⟩
      = ("", none) := by
  rfl

/-- A string field whose wire value stands for `s` decodes to `s` with no error. -/
theorem decodeField_string (o : List (String × JSON)) (name key s : String)
    (h : wireString (lookupField o key) = some s) :
    decodeField "" decodeString o name key = (s, []) := by
  unfold decodeField
  cases hv : lookupField o key with
  | none => simp [hv, wireString] at h; simp [h]
  | some v =>
    cases v <;> simp_all [wireString, decode, decodeString]

/-- A bool field whose wire value stands for `b` decodes to `b` with no error. -/
theorem decodeField_bool (o : List (String × JSON)) (name key : String) (b : Bool)
    (h : wireBool (lookupField o key) = some b) :
    decodeField false decodeBool o name key = (b, []) := by
  unfold decodeField
  cases hv : lookupField o key with
  | none => simp [hv, wireBool] at h; simp [h]
  | some v =>
    cases v <;> simp_all [wireBool, decode, decodeBool]

/-- A link entry decodes to its link with no error, under every name. -/
theorem decode_linkEntry (x : JSON) (l : Link) (name : String) (h : isLinkEntry x l) :
    decode { Href := "", Rel := "" } decodeLink name x = (l, []) := by
  obtain ⟨o, rfl, hh, hr⟩ := h
  simp [decode, decodeLink, decodeField_string o name "href" l.Href hh,
    decodeField_string o name "rel" l.Rel hr]

/-- When every element decodes with no error under every name, so does the slice. -/
theorem decodeElems_forall₂ {α : Type} (zero : α) (byKind : String → JSON → α × List String)
    (name : String) (xs : List JSON) (as : List α) (i : Nat)
    (h : List.Forall₂ (fun x a => ∀ n, decode zero byKind n x = (a, [])) xs as) :
    decodeElems zero byKind name i xs = (as, []) := by
  induction h generalizing i with
  | nil => rfl
  | cons hx _ ih => simp [decodeElems, hx, ih]

/-- The value kept by the loop of `ExtractNextURL` when no link has the relation `next`. -/
theorem foldl_next_of_none (links : List Link) (init : String)
    (h : ∀ l ∈ links, l.Rel ≠ "next") :
    links.foldl (fun url l => if l.Rel = "next" then l.Href else url) init = init := by
  induction links generalizing init with
  | nil => rfl
  | cons l ls ih =>
    have hl : l.Rel ≠ "next" := h l (List.mem_cons_self _ _)
    simp only [List.foldl_cons, if_neg hl]
    exact ih init (fun m hm => h m (List.mem_cons_of_mem _ hm))

/-- `ExtractNextURL` returns the URL of the last link with the relation `next`. -/
theorem extractNextURL_last (pre post : List Link) (l : Link) (h : l.Rel = "next")
    (hpost : ∀ m ∈ post, m.Rel ≠ "next") :
    ExtractNextURL (pre ++ l :: post) = (l.Href, none) := by
  simp [ExtractNextURL, List.foldl_append, h, foldl_next_of_none post l.Href hpost]

/-- `ExtractNextURL` returns the empty URL when no link has the relation `next`. -/
theorem extractNextURL_none (links : List Link) (h : ∀ l ∈ links, l.Rel ≠ "next") :
    ExtractNextURL links = ("", none) := by
  simp [ExtractNextURL, foldl_next_of_none links "" h]

/-- The links decoded from a mapping body: none when the key search finds no key, and
the carried links when it finds an array of link entries. -/
theorem decodeLinks_of_entries (linksKey : String) (kvs : List (String × JSON))
    (xs : List JSON) (links : List Link)
    (hkey : (lookupField kvs linksKey = none ∧ xs = [])
      ∨ lookupField kvs linksKey = some (JSON.array xs))
    (hxs : List.Forall₂ isLinkEntry xs links) :
    decodeLinks linksKey (Body.parsed (JSON.object kvs)) = (links, none) := by
  rcases hkey with ⟨hnone, rfl⟩ | hsome
  · cases hxs
    simp [decodeLinks, Decode, decode, decodeWrapper, decodeField, hnone, toError]
  · have hdec := decodeElems_forall₂ { Href := "", Rel := "" } decodeLink
      (qualify "" linksKey) xs links 0
      (List.Forall₂.imp (fun x l hx n => decode_linkEntry x l n hx) hxs)
    simp [decodeLinks, Decode, decode, decodeWrapper, decodeField, hsome, decodeSlice, hdec,
      toError]

/-- C5, as stated, fails at two mappings.  In the first the `pools_links` array holds an
entry with `rel` = `next` and `href` = `http://lb/pools2`, followed by an entry whose
`href` is a number: `PoolPage.NextPageURL` returns the empty URL and a decode error.  In
the second the key `pools_links` is absent and the links stand under `Pools_Links`:
`PoolPage.NextPageURL` returns `http://lb/pools2`, not the empty URL. -/
theorem poolPage_nextPageURL_error_with_next_entry :
    Pools.PoolPage.NextPageURL
        ⟨pageOf (.parsed (.object
          [("pools", .array []),
           ("pools_links", .array
              [.object [("href", .string "http://lb/pools2"), ("rel", .string "next")],
               .object [("href", .number 7), ("rel", .string "previous")]])]))⟩
      = ("", some (GoError.decode ["pools_links[1].href"]))
    ∧ List.lookup "pools_links"
        [("pools", JSON.array []),
         ("Pools_Links", JSON.array
            [.object [("href", .string "http://lb/pools2"), ("rel", .string "next")]])]
      = none
    ∧ Pools.PoolPage.NextPageURL
        ⟨pageOf (.parsed (.object
          [("pools", .array []),
           ("Pools_Links", .array
              [.object [("href", .string "http://lb/pools2"), ("rel", .string "next")]])]))⟩
      = ("http://lb/pools2", none) :=
  ⟨rfl, rfl, rfl⟩

/-- C5 (amended): for a pool collection body that is a mapping in which the key search of
the decoder finds no key for `pools_links`, or finds an array of link entries (mappings
whose `href` and `rel` are strings, `null` or missing), `PoolPage.NextPageURL` returns no
error; it returns the empty URL when no entry has `rel` = `next`, and the `href` of the
last entry with `rel` = `next` when there is one. -/
theorem poolPage_nextPageURL_of_links (p : Pools.PoolPage) (kvs : List (String × JSON))
    (xs : List JSON) (links : List Link)
    (hbody : p.LinkedPageBase.Body = Body.parsed (JSON.object kvs))
    (hkey : (lookupField kvs "pools_links" = none ∧ xs = [])
      ∨ lookupField kvs "pools_links" = some (JSON.array xs))
    (hxs : List.Forall₂ isLinkEntry xs links) :
    ((∀ l ∈ links, l.Rel ≠ "next") → p.NextPageURL = ("", none))
    ∧ (∀ pre l post, links = pre ++ l :: post → l.Rel = "next" →
        (∀ m ∈ post, m.Rel ≠ "next") → p.NextPageURL = (l.Href, none)) := by
  have hdec := decodeLinks_of_entries "pools_links" kvs xs links hkey hxs
  have hnext : p.NextPageURL = ExtractNextURL links := by
    simp [Pools.PoolPage.NextPageURL, hbody, hdec]
  refine ⟨fun hno => ?_, fun pre l post hl hrel hpost => ?_⟩
  · rw [hnext, extractNextURL_none links hno]
  · rw [hnext, hl, extractNextURL_last pre post l hrel hpost]

/-- C5 (amended) at a concrete page: a `previous` link followed by a `next` link. -/
theorem poolPage_nextPageURL_of_links_witness :
    Pools.PoolPage.NextPageURL ⟨pageOf (.parsed (.object examplePoolsBody))⟩
      = ("http://lb/pools3", none) :=
  (poolPage_nextPageURL_of_links ⟨pageOf (.parsed (.object examplePoolsBody))⟩
    examplePoolsBody exampleLinkEntries
    [⟨"http://lb/pools1", "previous"⟩, ⟨"http://lb/pools3", "next"⟩]
    rfl (Or.inr rfl)
    (List.Forall₂.cons ⟨_, rfl, rfl, rfl⟩
      (List.Forall₂.cons ⟨_, rfl, rfl, rfl⟩ List.Forall₂.nil))).2
    [⟨"http://lb/pools1", "previous"⟩] ⟨"http://lb/pools3", "next"⟩ [] rfl rfl
    (fun _ h => absurd h (List.not_mem_nil _))

/-- A string is equal to itself under case folding. -/
theorem equalFold_self (s : String) : equalFold s s = true := by
  simp [equalFold]

/-- The key search of the decoder finds nothing when no key of the mapping equals the
field name under case folding. -/
theorem lookupField_eq_none (kvs : List (String × JSON)) (fieldName : String)
    (h : ∀ kv ∈ kvs, equalFold kv.1 fieldName = false) :
    lookupField kvs fieldName = none := by
  have hlookup : kvs.lookup fieldName = none := by
    induction kvs with
    | nil => rfl
    | cons kv kvs ih =>
      obtain ⟨k, v⟩ := kv
      have hk : equalFold k fieldName = false := h (k, v) (List.mem_cons_self _ _)
      have hne : (fieldName == k) = false := by
        rw [beq_eq_false_iff_ne]
        intro heq
        rw [← heq, equalFold_self] at hk
        exact Bool.noConfusion hk
      rw [List.lookup_cons, hne]
      exact ih (fun kv hkv => h kv (List.mem_cons_of_mem _ hkv))
  have hfind : kvs.find? (fun kv => equalFold kv.1 fieldName) = none := by
    rw [List.find?_eq_none]
    intro kv hkv
    simp [h kv hkv]
  simp [lookupField, hlookup, hfind]

/-- Folding does not tell the field name `Pool` from the wire key `pool`. -/
theorem equalFold_Pool (k : String) : equalFold k "Pool" = equalFold k "pool" := by
  unfold equalFold
  rfl

/-- Folding does not tell the field name `Member` from the wire key `member`. -/
theorem equalFold_Member (k : String) : equalFold k "Member" = equalFold k "member" := by
  unfold equalFold
  rfl

/-- A pointer decoded from a mapping in which the wrapper field finds no key is `nil`,
with no error. -/
theorem decode_pointer_missing {α : Type} (zero : α)
    (byKind : String → JSON → α × List String) (fieldName : String)
    (kvs : List (String × JSON)) (h : lookupField kvs fieldName = none) :
    Decode none (decodeWrapper none (decodePtr zero byKind) fieldName)
      (Body.parsed (JSON.object kvs)) = (none, none) := by
  simp [Decode, decode, decodeWrapper, decodeField, h, toError]

/-- A slice decoded from a mapping in which the wrapper field finds no key is empty,
with no error. -/
theorem decode_slice_missing {α : Type} (zero : α)
    (byKind : String → JSON → α × List String) (fieldName : String)
    (kvs : List (String × JSON)) (h : lookupField kvs fieldName = none) :
    Decode [] (decodeWrapper [] (decodeSlice zero byKind) fieldName)
      (Body.parsed (JSON.object kvs)) = ([], none) := by
  simp [Decode, decode, decodeWrapper, decodeField, h, toError]

/-- C6, as stated, fails: with no failure set and a body that is a mapping without the
singular wrapper key (`{"message": "gone"}`), `Extract` of loadbalancers, `Extract` and
`ExtractMember` of pools and `ExtractMember` of the member result return no record and no
error. -/
theorem extract_missing_wrapper_is_no_error :
    Loadbalancers.commonResult.Extract
        ⟨⟨.parsed (.object [("message", .string "gone")]), [], none⟩⟩ = (none, none)
    ∧ Pools.commonResult.Extract
        ⟨⟨.parsed (.object [("message", .string "gone")]), [], none⟩⟩ = (none, none)
    ∧ Pools.commonResult.ExtractMember
        ⟨⟨.parsed (.object [("message", .string "gone")]), [], none⟩⟩ = (none, none)
    ∧ Pools.commonMemberResult.ExtractMember
        ⟨⟨.parsed (.object [("message", .string "gone")]), [], none⟩⟩ = (none, none) :=
  ⟨rfl, rfl, rfl, rfl⟩

/-- C6 (amended): with no failure set and a body that is a mapping with no key equal to
the singular wrapper key under case folding (`loadbalancer`, `pool`, `member`), the
single-resource extract returns no record and no error. -/
theorem extract_without_wrapper_returns_nil (lb pool member : List (String × JSON))
    (header : List (String × List String))
    (hlb : ∀ kv ∈ lb, equalFold kv.1 "loadbalancer" = false)
    (hpool : ∀ kv ∈ pool, equalFold kv.1 "pool" = false)
    (hmember : ∀ kv ∈ member, equalFold kv.1 "member" = false) :
    Loadbalancers.commonResult.Extract ⟨⟨.parsed (.object lb), header, none⟩⟩ = (none, none)
    ∧ Pools.commonResult.Extract ⟨⟨.parsed (.object pool), header, none⟩⟩ = (none, none)
    ∧ Pools.commonResult.ExtractMember ⟨⟨.parsed (.object member), header, none⟩⟩
        = (none, none)
    ∧ Pools.commonMemberResult.ExtractMember ⟨⟨.parsed (.object member), header, none⟩⟩
        = (none, none) := by
  have h1 := lookupField_eq_none lb "loadbalancer" hlb
  have h2 := lookupField_eq_none pool "Pool"
    (fun kv hkv => by rw [equalFold_Pool]; exact hpool kv hkv)
  have h3 := lookupField_eq_none member "Member"
    (fun kv hkv => by rw [equalFold_Member]; exact hmember kv hkv)
  exact ⟨decode_pointer_missing _ _ _ _ h1, decode_pointer_missing _ _ _ _ h2,
    decode_pointer_missing _ _ _ _ h3, decode_pointer_missing _ _ _ _ h3⟩

/-- C6 (amended) at concrete bodies that carry another key only. -/
theorem extract_without_wrapper_returns_nil_witness :
    Loadbalancers.commonResult.Extract
        ⟨⟨.parsed (.object [("message", .string "gone")]), [], none⟩⟩ = (none, none)
    ∧ Pools.commonResult.Extract
        ⟨⟨.parsed (.object [("code", .number 404)]), [], none⟩⟩ = (none, none)
    ∧ Pools.commonResult.ExtractMember
        ⟨⟨.parsed (.object [("pool", .object [])]), [], none⟩⟩ = (none, none)
    ∧ Pools.commonMemberResult.ExtractMember
        ⟨⟨.parsed (.object [("pool", .object [])]), [], none⟩⟩ = (none, none) :=
  extract_without_wrapper_returns_nil [("message", .string "gone")] [("code", .number 404)]
    [("pool", .object [])] []
    (by decide) (by decide) (by decide)

/-- C7, as stated, fails: each body is a mapping that lacks the plural wrapper key
(`loadbalancers`, `pools`, `members`) and carries it in another letter case; the
collection extract returns one record, not an empty sequence. -/
theorem extract_collection_matches_other_case :
    (List.lookup "loadbalancers" [("LoadBalancers", JSON.array [.object [("id", .string "lb1")]])]
        = none
      ∧ Loadbalancers.ExtractLoadbalancers
          ⟨pageOf (.parsed (.object [("LoadBalancers", .array [.object [("id", .string "lb1")]])]))⟩
        = ([{ Loadbalancers.LoadBalancer.zero with ID := "lb1" }], none))
    ∧ (List.lookup "pools" [("Pools", JSON.array [.object [("id", .string "p1")]])] = none
      ∧ (Pools.ExtractPools
          ⟨pageOf (.parsed (.object [("Pools", .array [.object [("id", .string "p1")]])]))⟩).1.map
            (fun p => p.ID) = ["p1"]
      ∧ (Pools.ExtractPools
          ⟨pageOf (.parsed (.object [("Pools", .array [.object [("id", .string "p1")]])]))⟩).2
            = none)
    ∧ (List.lookup "members" [("MEMBERS", JSON.array [.object [("id", .string "m1")]])] = none
      ∧ Pools.ExtractMembers
          ⟨pageOf (.parsed (.object [("MEMBERS", .array [.object [("id", .string "m1")]])]))⟩
        = ([{ Pools.Member.zero with ID := "m1" }], none)) :=
  ⟨⟨rfl, rfl⟩, ⟨rfl, rfl, rfl⟩, ⟨rfl, rfl⟩⟩

/-- C7 (amended): for a page whose body is a mapping with no key equal to the plural
wrapper key under case folding (`loadbalancers`, `pools`, `members`), the collection
extract returns an empty sequence of records and no error. -/
theorem extract_collection_without_wrapper (lbs pools members : List (String × JSON))
    (hlbs : ∀ kv ∈ lbs, equalFold kv.1 "loadbalancers" = false)
    (hpools : ∀ kv ∈ pools, equalFold kv.1 "pools" = false)
    (hmembers : ∀ kv ∈ members, equalFold kv.1 "members" = false) :
    Loadbalancers.ExtractLoadbalancers ⟨pageOf (.parsed (.object lbs))⟩ = ([], none)
    ∧ Pools.ExtractPools ⟨pageOf (.parsed (.object pools))⟩ = ([], none)
    ∧ Pools.ExtractMembers ⟨pageOf (.parsed (.object members))⟩ = ([], none) :=
  ⟨decode_slice_missing _ _ _ _ (lookupField_eq_none lbs "loadbalancers" hlbs),
   decode_slice_missing _ _ _ _ (lookupField_eq_none pools "pools" hpools),
   decode_slice_missing _ _ _ _ (lookupField_eq_none members "members" hmembers)⟩

/-- C7 (amended) at concrete bodies: an empty mapping, a mapping with the links only, and
a mapping that carries another collection. -/
theorem extract_collection_without_wrapper_witness :
    Loadbalancers.ExtractLoadbalancers ⟨pageOf (.parsed (.object []))⟩ = ([], none)
    ∧ Pools.ExtractPools ⟨pageOf (.parsed (.object [("pools_links", .array [])]))⟩
        = ([], none)
    ∧ Pools.ExtractMembers
        ⟨pageOf (.parsed (.object [("pools", .array [.object [("id", .string "p1")]])]))⟩
        = ([], none) :=
  extract_collection_without_wrapper [] [("pools_links", .array [])]
    [("pools", .array [.object [("id", .string "p1")]])]
    (by decide) (by decide) (by decide)

/-- Inside the `int64` range the conversion `int64(f)` is truncation towards zero. -/
theorem toInt64_of_range (q : ℚ) (hlo : -(2 : Int) ^ 63 ≤ Int.tdiv q.num q.den)
    (hhi : Int.tdiv q.num q.den < (2 : Int) ^ 63) :
    toInt64 q = Int.tdiv q.num q.den := by
  unfold toInt64
  exact if_pos ⟨hlo, hhi⟩

/-- An int field whose wire value stands for `n` decodes to `n` with no error. -/
theorem decodeField_int (o : List (String × JSON)) (name key : String) (n : Int)
    (h : wireInt (lookupField o key) = some n) :
    decodeField 0 decodeInt o name key = (n, []) := by
  unfold decodeField
  cases hv : lookupField o key with
  | none => simp [hv, wireInt] at h; simp [h]
  | some v =>
    cases v <;> simp_all [wireInt, decode, decodeInt]

/-- Refinement for `Member`: when a member body stands for the record `m`, `decodeStruct`
returns `m` with no error, under every name. -/
theorem decodeMember_of_memberOf (o : List (String × JSON)) (m : Pools.Member)
    (name : String) (h : memberOf o = some m) :
    Pools.decodeMember name (JSON.object o) = (m, []) := by
  simp only [memberOf, bind, Option.bind_eq_some, pure, Option.some.injEq] at h
  obtain ⟨nm, h1, weight, h2, adminStateUp, h3, tenantID, h4, subnetID, h5, poolID, h6,
    address, h7, protocolPort, h8, id, h9, rfl⟩ := h
  simp [Pools.decodeMember, decodeField_string o name _ _ h1, decodeField_int o name _ _ h2,
    decodeField_bool o name _ _ h3, decodeField_string o name _ _ h4,
    decodeField_string o name _ _ h5, decodeField_string o name _ _ h6,
    decodeField_string o name _ _ h7, decodeField_int o name _ _ h8,
    decodeField_string o name _ _ h9]

/-- A collection body with one entry that decodes to `a` with no error gives `[a]`. -/
theorem decode_slice_single {α : Type} (zero : α)
    (byKind : String → JSON → α × List String) (key : String) (o : List (String × JSON))
    (a : α) (h : ∀ name, byKind name (JSON.object o) = (a, [])) :
    Decode [] (decodeWrapper [] (decodeSlice zero byKind) key)
      (Body.parsed (JSON.object [(key, JSON.array [JSON.object o])])) = ([a], none) := by
  simp [Decode, decode, decodeWrapper, decodeField, lookupField, List.lookup, decodeSlice,
    decodeElems, h, toError]

/-- A single-resource body whose wrapper value decodes to `a` with no error gives a
pointer to `a`. -/
theorem decode_pointer_found {α : Type} (zero : α)
    (byKind : String → JSON → α × List String) (fieldName : String)
    (kvs o : List (String × JSON)) (a : α)
    (hkey : lookupField kvs fieldName = some (JSON.object o))
    (h : ∀ name, byKind name (JSON.object o) = (a, [])) :
    Decode none (decodeWrapper none (decodePtr zero byKind) fieldName)
      (Body.parsed (JSON.object kvs)) = (some a, none) := by
  simp [Decode, decode, decodeWrapper, decodeField, hkey, decodePtr, h, toError]

/-- C8, as stated, fails: the member body carries `weight` = `2.5`; `ExtractMembers` and
both `ExtractMember` methods return no error and a `Member` whose `Weight` is `2`. -/
theorem extractMember_truncates_fraction :
    Pools.ExtractMembers
        ⟨pageOf (.parsed (.object [("members", .array [.object
          [("id", .string "m1"), ("weight", .number (5 / 2))]])]))⟩
      = ([{ Pools.Member.zero with ID := "m1", Weight := 2 }], none)
    ∧ Pools.commonMemberResult.ExtractMember
        ⟨⟨.parsed (.object [("member", .object
          [("id", .string "m1"), ("weight", .number (5 / 2))])]), [], none⟩⟩
      = (some { Pools.Member.zero with ID := "m1", Weight := 2 }, none)
    ∧ Pools.commonResult.ExtractMember
        ⟨⟨.parsed (.object [("member", .object
          [("id", .string "m1"), ("weight", .number (5 / 2))])]), [], none⟩⟩
      = (some { Pools.Member.zero with ID := "m1", Weight := 2 }, none) := by
  have h : (5 / 2 : ℚ) = ⟨5, 2, by decide, by decide⟩ := by
    rw [Rat.eq_iff_mul_eq_mul]; norm_num
  rw [h]
  exact ⟨rfl, rfl, rfl⟩

/-- C8 (amended): for a member body that stands for a record (every declared key carries
a value of the declared kind, where an integer field takes any number), `ExtractMembers`
and both `ExtractMember` methods return that record and no error; when the wire value of
`weight` or `protocol_port` is a number whose integer part lies in the `int64` range, the
field holds the number truncated towards zero, whether or not it has a fractional part. -/
theorem extractMember_number_truncated (o : List (String × JSON)) (m : Pools.Member)
    (header : List (String × List String)) (h : memberOf o = some m) :
    Pools.ExtractMembers ⟨pageOf (.parsed (.object [("members", .array [.object o])]))⟩
      = ([m], none)
    ∧ Pools.commonMemberResult.ExtractMember
        ⟨⟨.parsed (.object [("member", .object o)]), header, none⟩⟩ = (some m, none)
    ∧ Pools.commonResult.ExtractMember
        ⟨⟨.parsed (.object [("member", .object o)]), header, none⟩⟩ = (some m, none)
    ∧ (∀ w : ℚ, lookupField o "weight" = some (.number w) →
        -(2 : Int) ^ 63 ≤ Int.tdiv w.num w.den → Int.tdiv w.num w.den < (2 : Int) ^ 63 →
        m.Weight = Int.tdiv w.num w.den)
    ∧ (∀ w : ℚ, lookupField o "protocol_port" = some (.number w) →
        -(2 : Int) ^ 63 ≤ Int.tdiv w.num w.den → Int.tdiv w.num w.den < (2 : Int) ^ 63 →
        m.ProtocolPort = Int.tdiv w.num w.den) := by
  have hdec := fun name => decodeMember_of_memberOf o m name h
  refine ⟨decode_slice_single _ _ _ _ _ hdec, decode_pointer_found _ _ _ _ _ _ rfl hdec,
    decode_pointer_found _ _ _ _ _ _ rfl hdec, ?_, ?_⟩
  · intro w hw hlo hhi
    simp only [memberOf, bind, Option.bind_eq_some, pure, Option.some.injEq] at h
    obtain ⟨nm, h1, weight, h2, adminStateUp, h3, tenantID, h4, subnetID, h5, poolID, h6,
      address, h7, protocolPort, h8, id, h9, rfl⟩ := h
    simp only [hw, wireInt, Option.some.injEq] at h2
    rw [← h2]
    exact toInt64_of_range w hlo hhi
  · intro w hw hlo hhi
    simp only [memberOf, bind, Option.bind_eq_some, pure, Option.some.injEq] at h
    obtain ⟨nm, h1, weight, h2, adminStateUp, h3, tenantID, h4, subnetID, h5, poolID, h6,
      address, h7, protocolPort, h8, id, h9, rfl⟩ := h
    simp only [hw, wireInt, Option.some.injEq] at h8
    rw [← h8]
    exact toInt64_of_range w hlo hhi

/-- C8 (amended) at a concrete member body with `weight` = `2.5` and `protocol_port` =
`80`: the record holds `Weight` = `2` and `ProtocolPort` = `80`. -/
theorem extractMember_number_truncated_witness :
    Pools.ExtractMembers
        ⟨pageOf (.parsed (.object [("members", .array [.object exampleMember])]))⟩
      = ([{ Pools.Member.zero with
            ID := "m1", Address := "10.0.0.5", Weight := 2, ProtocolPort := 80 }], none) :=
  (extractMember_number_truncated exampleMember
    { Pools.Member.zero with ID := "m1", Address := "10.0.0.5", Weight := 2, ProtocolPort := 80 }
    [] rfl).1

/-- In a mapping with every key once, `MapIndex` at the key of an entry gives its value. -/
theorem lookup_of_mem_nodup (kvs : List (String × JSON)) (h : (kvs.map Prod.fst).Nodup)
    (kv : String × JSON) (hkv : kv ∈ kvs) : kvs.lookup kv.1 = some kv.2 := by
  induction kvs with
  | nil => cases hkv
  | cons e es ih =>
    obtain ⟨k, v⟩ := e
    rw [List.map_cons, List.nodup_cons] at h
    rcases List.mem_cons.mp hkv with heq | hmem
    · subst heq
      simp [List.lookup_cons]
    · have hne : (kv.1 == k) = false := by
        rw [beq_eq_false_iff_ne]
        intro hk
        exact h.1 (List.mem_map.mpr ⟨kv, hmem, hk⟩)
      rw [List.lookup_cons, hne]
      exact ih h.2 hmem

/-- A `filterMap` that keeps every element as it is returns the list. -/
theorem filterMap_eq_self {α : Type} (f : α → Option α) (l : List α)
    (h : ∀ x ∈ l, f x = some x) : l.filterMap f = l := by
  induction l with
  | nil => rfl
  | cons x xs ih =>
    rw [List.filterMap_cons, h x (List.mem_cons_self _ _)]
    simp [ih (fun y hy => h y (List.mem_cons_of_mem _ hy))]

/-- One round of the loop of `decodeMap` never fails: it gives the key with the value
found for it. -/
theorem decodeMapEntry_eq (name : String) (kvs : List (String × JSON)) (k : String) :
    decodeMapEntry name kvs k = (some (k, (kvs.lookup k).getD JSON.null), []) := by
  cases h : (kvs.lookup k).getD JSON.null <;>
    simp [decodeMapEntry, decode, decodeString, decodeBasic, h]

/-- The routine `decodeMap` copies a mapping with every key once entry by entry. -/
theorem decodeMap_of_nodup (name : String) (kvs : List (String × JSON))
    (h : (kvs.map Prod.fst).Nodup) : decodeMap name (JSON.object kvs) = (kvs, []) := by
  have hfst : ((kvs.map Prod.fst).map (decodeMapEntry name kvs)).filterMap Prod.fst = kvs := by
    rw [List.map_map, List.filterMap_map]
    apply filterMap_eq_self
    intro kv hkv
    simp [decodeMapEntry_eq, lookup_of_mem_nodup kvs h kv hkv]
  have hsnd : (((kvs.map Prod.fst).map (decodeMapEntry name kvs)).map Prod.snd).flatten = [] := by
    rw [List.map_map, List.map_map, List.flatten_eq_nil_iff]
    intro l hl
    obtain ⟨kv, _, rfl⟩ := List.mem_map.mp hl
    simp [decodeMapEntry_eq]
  simp only [decodeMap, hfst, hsnd]

/-- When every entry stands for a value and decodes to it, the slice decodes to the
values the array stands for. -/
theorem decodeElems_of_wireAll {α : Type} (zero : α)
    (byKind : String → JSON → α × List String) (f : JSON → Option α)
    (hf : ∀ x a, f x = some a → ∀ n, decode zero byKind n x = (a, []))
    (name : String) (xs : List JSON) (as : List α) (i : Nat) (h : wireAll f xs = some as) :
    decodeElems zero byKind name i xs = (as, []) := by
  induction xs generalizing as i with
  | nil =>
    simp only [wireAll, Option.some.injEq] at h
    subst h
    rfl
  | cons x xs ih =>
    unfold wireAll at h
    cases hx : f x with
    | none => simp [hx] at h
    | some a =>
      cases hxs : wireAll f xs with
      | none => simp [hx, hxs] at h
      | some rest =>
        simp only [hx, hxs, Option.some.injEq] at h
        subst h
        simp [decodeElems, hf x a hx, ih rest (i + 1) hxs]

/-- A stub entry decodes to the stub it stands for. -/
theorem decode_wireStub (x : JSON) (a : List (String × JSON)) (h : wireStub x = some a)
    (n : String) : decode [] decodeMap n x = (a, []) := by
  cases x with
  | null => simp [wireStub] at h; simp [decode, h]
  | object kvs =>
    by_cases hnd : (kvs.map Prod.fst).Nodup
    · simp [wireStub, hnd] at h
      subst h
      simp [decode, decodeMap_of_nodup n kvs hnd]
    · simp [wireStub, hnd] at h
  | bool b => simp [wireStub] at h
  | number q => simp [wireStub] at h
  | string s => simp [wireStub] at h
  | array xs => simp [wireStub] at h

/-- A reference-list field whose wire value stands for `r` decodes to `r` with no error. -/
theorem decodeField_stubs (o : List (String × JSON)) (name key : String)
    (r : List (List (String × JSON))) (h : wireStubs (lookupField o key) = some r) :
    decodeField [] (decodeSlice [] decodeMap) o name key = (r, []) := by
  unfold decodeField
  cases hv : lookupField o key with
  | none => simp [hv, wireStubs] at h; simp [h]
  | some v =>
    cases v with
    | null => simp [hv, wireStubs] at h; simp [decode, h]
    | array xs =>
      simp only [hv, wireStubs] at h
      simp [decode, decodeSlice, decodeElems_of_wireAll [] decodeMap wireStub
        (fun x a hx n => decode_wireStub x a hx n) _ xs r 0 h]
    | bool b => simp [hv, wireStubs] at h
    | number q => simp [hv, wireStubs] at h
    | string s => simp [hv, wireStubs] at h
    | object kvs => simp [hv, wireStubs] at h

/-- A string entry decodes to the string it stands for. -/
theorem decode_wireString (x : JSON) (a : String) (h : wireString (some x) = some a)
    (n : String) : decode "" decodeString n x = (a, []) := by
  cases x <;> simp_all [wireString, decode, decodeString]

/-- A `[]string` field whose wire value stands for `r` decodes to `r` with no error. -/
theorem decodeField_strings (o : List (String × JSON)) (name key : String)
    (r : List String) (h : wireStrings (lookupField o key) = some r) :
    decodeField [] (decodeSlice "" decodeString) o name key = (r, []) := by
  unfold decodeField
  cases hv : lookupField o key with
  | none => simp [hv, wireStrings] at h; simp [h]
  | some v =>
    cases v with
    | null => simp [hv, wireStrings] at h; simp [decode, h]
    | array xs =>
      simp only [hv, wireStrings] at h
      simp [decode, decodeSlice, decodeElems_of_wireAll "" decodeString
        (fun x => wireString (some x)) (fun x a hx n => decode_wireString x a hx n) _ xs r 0 h]
    | bool b => simp [hv, wireStrings] at h
    | number q => simp [hv, wireStrings] at h
    | string s => simp [hv, wireStrings] at h
    | object kvs => simp [hv, wireStrings] at h

/-- A `SessionPersistence` field whose wire value stands for `r` decodes to `r` with no
error. -/
theorem decodeField_persistence (o : List (String × JSON)) (name key : String)
    (r : Pools.SessionPersistence) (h : wirePersistence (lookupField o key) = some r) :
    decodeField { Type' := "", CookieName := "" } Pools.decodeSessionPersistence o name key
      = (r, []) := by
  unfold decodeField
  cases hv : lookupField o key with
  | none => simp [hv, wirePersistence] at h; simp [h]
  | some v =>
    cases v with
    | null => simp [hv, wirePersistence] at h; simp [decode, h]
    | object kvs =>
      simp only [hv, wirePersistence, bind, Option.bind_eq_some, pure,
        Option.some.injEq] at h
      obtain ⟨typ, h1, cookieName, h2, rfl⟩ := h
      simp [decode, Pools.decodeSessionPersistence, decodeField_string kvs _ _ _ h1,
        decodeField_string kvs _ _ _ h2]
    | bool b => simp [hv, wirePersistence] at h
    | number q => simp [hv, wirePersistence] at h
    | string s => simp [hv, wirePersistence] at h
    | array xs => simp [hv, wirePersistence] at h

/-- A bind in `Option` that gives a value went through a value. -/
theorem bind_eq_some_elim {α β : Type} (x : Option α) (f : α → Option β) (b : β)
    (h : (x >>= f) = some b) : ∃ a, x = some a ∧ f a = some b := by
  cases x with
  | none => cases h
  | some a => exact ⟨a, rfl, h⟩

/-- The record a pool body stands for, field by field. -/
theorem poolOf_eq_some (o : List (String × JSON)) (p : Pools.Pool) (h : poolOf o = some p) :
    ∃ lbMethod protocol description listeners members monitorIDs subnetID tenantID
      adminStateUp nm id loadbalancers persistence provider,
      wireString (lookupField o "lb_algorithm") = some lbMethod
      ∧ wireString (lookupField o "Protocol") = some protocol
      ∧ wireString (lookupField o "Description") = some description
      ∧ wireStubs (lookupField o "listeners") = some listeners
      ∧ wireStubs (lookupField o "members") = some members
      ∧ wireStrings (lookupField o "health_monitors") = some monitorIDs
      ∧ wireString (lookupField o "subnet_id") = some subnetID
      ∧ wireString (lookupField o "tenant_id") = some tenantID
      ∧ wireBool (lookupField o "admin_state_up") = some adminStateUp
      ∧ wireString (lookupField o "Name") = some nm
      ∧ wireString (lookupField o "ID") = some id
      ∧ wireStubs (lookupField o "loadbalancers") = some loadbalancers
      ∧ wirePersistence (lookupField o "session_persistence") = some persistence
      ∧ wireString (lookupField o "Provider") = some provider
      ∧ p = { LBMethod := lbMethod, Protocol := protocol, Description := description,
              Listeners := listeners, Members := members, MonitorIDs := monitorIDs,
              SubnetID := subnetID, TenantID := tenantID, AdminStateUp := adminStateUp,
              Name := nm, ID := id, Loadbalancers := loadbalancers,
              Persistence := persistence, Provider := provider } := by
  unfold poolOf at h
  obtain ⟨lbMethod, h1, h⟩ := bind_eq_some_elim _ _ _ h
  obtain ⟨protocol, h2, h⟩ := bind_eq_some_elim _ _ _ h
  obtain ⟨description, h3, h⟩ := bind_eq_some_elim _ _ _ h
  obtain ⟨listeners, h4, h⟩ := bind_eq_some_elim _ _ _ h
  obtain ⟨members, h5, h⟩ := bind_eq_some_elim _ _ _ h
  obtain ⟨monitorIDs, h6, h⟩ := bind_eq_some_elim _ _ _ h
  obtain ⟨subnetID, h7, h⟩ := bind_eq_some_elim _ _ _ h
  obtain ⟨tenantID, h8, h⟩ := bind_eq_some_elim _ _ _ h
  obtain ⟨adminStateUp, h9, h⟩ := bind_eq_some_elim _ _ _ h
  obtain ⟨nm, h10, h⟩ := bind_eq_some_elim _ _ _ h
  obtain ⟨id, h11, h⟩ := bind_eq_some_elim _ _ _ h
  obtain ⟨loadbalancers, h12, h⟩ := bind_eq_some_elim _ _ _ h
  obtain ⟨persistence, h13, h⟩ := bind_eq_some_elim _ _ _ h
  obtain ⟨provider, h14, h⟩ := bind_eq_some_elim _ _ _ h
  exact ⟨lbMethod, protocol, description, listeners, members, monitorIDs, subnetID,
    tenantID, adminStateUp, nm, id, loadbalancers, persistence, provider,
    h1, h2, h3, h4, h5, h6, h7, h8, h9, h10, h11, h12, h13, h14,
    (Option.some.inj h).symm⟩

/-- Refinement for `Pool`: when a pool body stands for the record `p`, `decodeStruct`
returns `p` with no error, under every name. -/
theorem decodePool_of_poolOf (o : List (String × JSON)) (p : Pools.Pool) (name : String)
    (h : poolOf o = some p) : Pools.decodePool name (JSON.object o) = (p, []) := by
  obtain ⟨lbMethod, protocol, description, listeners, members, monitorIDs, subnetID,
    tenantID, adminStateUp, nm, id, loadbalancers, persistence, provider,
    h1, h2, h3, h4, h5, h6, h7, h8, h9, h10, h11, h12, h13, h14, rfl⟩ := poolOf_eq_some o p h
  simp [Pools.decodePool, decodeField_string o name _ _ h1, decodeField_string o name _ _ h2,
    decodeField_string o name _ _ h3, decodeField_stubs o name _ _ h4,
    decodeField_stubs o name _ _ h5, decodeField_strings o name _ _ h6,
    decodeField_string o name _ _ h7, decodeField_string o name _ _ h8,
    decodeField_bool o name _ _ h9, decodeField_string o name _ _ h10,
    decodeField_string o name _ _ h11, decodeField_stubs o name _ _ h12,
    decodeField_persistence o name _ _ h13, decodeField_string o name _ _ h14]

/-- The fields of the record a pool body stands for. -/
theorem poolOf_fields (o : List (String × JSON)) (p : Pools.Pool) (h : poolOf o = some p) :
    wireString (lookupField o "ID") = some p.ID
    ∧ wireString (lookupField o "Name") = some p.Name
    ∧ wireBool (lookupField o "admin_state_up") = some p.AdminStateUp
    ∧ wireStubs (lookupField o "members") = some p.Members
    ∧ wireStubs (lookupField o "listeners") = some p.Listeners
    ∧ wireStubs (lookupField o "loadbalancers") = some p.Loadbalancers := by
  obtain ⟨lbMethod, protocol, description, listeners, members, monitorIDs, subnetID,
    tenantID, adminStateUp, nm, id, loadbalancers, persistence, provider,
    h1, h2, h3, h4, h5, h6, h7, h8, h9, h10, h11, h12, h13, h14, rfl⟩ := poolOf_eq_some o p h
  exact ⟨h11, h10, h9, h5, h4, h12⟩

/-- A wire array of mappings with every key once stands for these mappings, in order. -/
theorem wireAll_stub_of_objects (stubs r : List (List (String × JSON)))
    (h : wireAll wireStub (stubs.map JSON.object) = some r) : r = stubs := by
  induction stubs generalizing r with
  | nil =>
    simp only [List.map_nil, wireAll, Option.some.injEq] at h
    exact h.symm
  | cons s ss ih =>
    rw [List.map_cons] at h
    unfold wireAll at h
    by_cases hnd : (s.map Prod.fst).Nodup
    · cases hss : wireAll wireStub (ss.map JSON.object) with
      | none => simp [wireStub, hnd, hss] at h
      | some rest =>
        simp only [wireStub, hnd, if_true, hss, Option.some.injEq] at h
        rw [← h, ih rest hss]
    · simp [wireStub, hnd] at h

/-- `MapIndex` as a search for the first entry with the key. -/
theorem lookup_eq_find (o : List (String × JSON)) (k : String) :
    o.lookup k = (o.find? (fun kv => kv.1 == k)).map Prod.snd := by
  induction o with
  | nil => rfl
  | cons e es ih =>
    obtain ⟨a, v⟩ := e
    by_cases hak : a = k
    · subst hak
      simp [List.lookup_cons, List.find?_cons]
    · have h1 : (k == a) = false := by
        rw [beq_eq_false_iff_ne]
        exact fun hka => hak hka.symm
      have h2 : (a == k) = false := by
        rw [beq_eq_false_iff_ne]
        exact hak
      rw [List.lookup_cons, h1, List.find?_cons]
      simp only [h2]
      exact ih

/-- Two tests that agree on the elements of a list find the same element. -/
theorem find_congr_mem {α : Type} (l : List α) (p q : α → Bool)
    (h : ∀ x ∈ l, p x = q x) : l.find? p = l.find? q := by
  induction l with
  | nil => rfl
  | cons x xs ih =>
    rw [List.find?_cons, List.find?_cons, h x (List.mem_cons_self _ _),
      ih (fun y hy => h y (List.mem_cons_of_mem _ hy))]

/-- `MapIndex` finds nothing for a key that no entry carries. -/
theorem lookup_eq_none_of_forall (o : List (String × JSON)) (k : String)
    (h : ∀ kv ∈ o, kv.1 ≠ k) : o.lookup k = none := by
  rw [lookup_eq_find, List.find?_eq_none.mpr]
  · rfl
  · intro kv hkv
    simp [h kv hkv]

/-- When folding against the field name `f` singles out the key `c` among the keys of a
mapping, the key search of the decoder for `f` is `MapIndex` at `c`. -/
theorem lookupField_of_pointwise (o : List (String × JSON)) (f c : String)
    (h : ∀ kv ∈ o, equalFold kv.1 f = (kv.1 == c)) : lookupField o f = o.lookup c := by
  have hfind : (o.find? (fun kv => equalFold kv.1 f)).map Prod.snd = o.lookup c := by
    rw [lookup_eq_find, find_congr_mem o _ (fun kv => kv.1 == c) h]
  by_cases hfc : f = c
  · subst hfc
    unfold lookupField
    cases hl : o.lookup f with
    | none => simp only [hfind, hl]
    | some v => rfl
  · have hnone : o.lookup f = none := by
      apply lookup_eq_none_of_forall
      intro kv hkv hk
      have h1 := h kv hkv
      rw [hk, equalFold_self] at h1
      exact hfc (eq_of_beq h1.symm)
    unfold lookupField
    simp only [hnone, hfind]

/-- In a pool body whose keys are wire keys or undeclared keys, the key search for the
field name `f` is `MapIndex` at the wire key `c` of the field. -/
theorem lookupField_wireKey (o : List (String × JSON)) (f c : String)
    (hkeys : wireKeysOnly o) (hf : f ∈ poolFieldNames) (hc : equalFold c f = true)
    (htable : ∀ k ∈ poolWireKeys, equalFold k f = (k == c)) :
    lookupField o f = o.lookup c := by
  apply lookupField_of_pointwise
  intro kv hkv
  rcases hkeys kv hkv with hw | hu
  · exact htable kv.1 hw
  · have hfalse : equalFold kv.1 f = false := by
      have := (List.all_eq_true.mp hu) f hf
      simpa using this
    rw [hfalse]
    symm
    rw [beq_eq_false_iff_ne]
    intro hk
    rw [hk, hc] at hfalse
    exact Bool.noConfusion hfalse

/-- Folding against a field name of `Pool` singles out the wire key of the field among
the wire keys. -/
theorem poolWireKeys_table :
    ∀ fc ∈ poolFieldNames.zip poolWireKeys,
      equalFold fc.2 fc.1 = true ∧ ∀ k ∈ poolWireKeys, equalFold k fc.1 = (k == fc.2) := by
  decide

/-- In a pool body whose keys are wire keys or undeclared keys, the key search for a
field of `Pool` is `MapIndex` at the wire key of that field. -/
theorem lookupField_pool (o : List (String × JSON)) (f c : String) (hkeys : wireKeysOnly o)
    (hfc : (f, c) ∈ poolFieldNames.zip poolWireKeys) : lookupField o f = o.lookup c :=
  lookupField_wireKey o f c hkeys (List.of_mem_zip hfc).1 (poolWireKeys_table (f, c) hfc).1
    (poolWireKeys_table (f, c) hfc).2

/-- Removing the undeclared keys does not change `MapIndex` at a wire key. -/
theorem lookup_declaredOnly (o : List (String × JSON)) (c : String)
    (hc : c ∈ poolWireKeys) : (declaredOnly o).lookup c = o.lookup c := by
  unfold declaredOnly
  induction o with
  | nil => rfl
  | cons e es ih =>
    obtain ⟨k, v⟩ := e
    rw [List.filter_cons]
    by_cases hk : k ∈ poolWireKeys
    · simp only [hk, decide_True, if_true, List.lookup_cons, ih]
    · have hne : (c == k) = false := by
        rw [beq_eq_false_iff_ne]
        intro hck
        exact hk (hck ▸ hc)
      simp only [hk, decide_False, List.lookup_cons, hne]
      exact ih

/-- A pool body without its undeclared keys carries wire keys only. -/
theorem wireKeysOnly_declaredOnly (o : List (String × JSON)) :
    wireKeysOnly (declaredOnly o) := by
  intro kv hkv
  left
  exact of_decide_eq_true (List.mem_filter.mp hkv).2

/-- Removing the undeclared keys does not change what the decoder finds for a field. -/
theorem lookupField_declaredOnly (o : List (String × JSON)) (f c : String)
    (hkeys : wireKeysOnly o) (hfc : (f, c) ∈ poolFieldNames.zip poolWireKeys) :
    lookupField (declaredOnly o) f = lookupField o f := by
  rw [lookupField_pool o f c hkeys hfc,
    lookupField_pool (declaredOnly o) f c (wireKeysOnly_declaredOnly o) hfc,
    lookup_declaredOnly o c (List.of_mem_zip hfc).2]

/-- Removing the undeclared keys does not change the record a pool body stands for. -/
theorem poolOf_declaredOnly (o : List (String × JSON)) (hkeys : wireKeysOnly o) :
    poolOf (declaredOnly o) = poolOf o := by
  unfold poolOf
  rw [lookupField_declaredOnly o "lb_algorithm" "lb_algorithm" hkeys (by decide),
    lookupField_declaredOnly o "Protocol" "protocol" hkeys (by decide),
    lookupField_declaredOnly o "Description" "description" hkeys (by decide),
    lookupField_declaredOnly o "listeners" "listeners" hkeys (by decide),
    lookupField_declaredOnly o "members" "members" hkeys (by decide),
    lookupField_declaredOnly o "health_monitors" "health_monitors" hkeys (by decide),
    lookupField_declaredOnly o "subnet_id" "subnet_id" hkeys (by decide),
    lookupField_declaredOnly o "tenant_id" "tenant_id" hkeys (by decide),
    lookupField_declaredOnly o "admin_state_up" "admin_state_up" hkeys (by decide),
    lookupField_declaredOnly o "Name" "name" hkeys (by decide),
    lookupField_declaredOnly o "ID" "id" hkeys (by decide),
    lookupField_declaredOnly o "loadbalancers" "loadbalancers" hkeys (by decide),
    lookupField_declaredOnly o "session_persistence" "session_persistence" hkeys (by decide),
    lookupField_declaredOnly o "Provider" "provider" hkeys (by decide)]

/-- The round trip for one pool body that stands for a record. -/
theorem roundTrip_of_poolOf (m : List (String × JSON)) (p : Pools.Pool)
    (h : poolOf m = some p) (hkeys : wireKeysOnly m) : roundTrip m p := by
  obtain ⟨hid, hname, hadmin, _, _, _⟩ := poolOf_fields m p h
  rw [lookupField_pool m "ID" "id" hkeys (by decide)] at hid
  rw [lookupField_pool m "Name" "name" hkeys (by decide)] at hname
  rw [lookupField_pool m "admin_state_up" "admin_state_up" hkeys (by decide)] at hadmin
  refine ⟨fun s hs => ?_, fun hn => ?_, fun s hs => ?_, fun hn => ?_, fun b hb => ?_,
    fun hn => ?_⟩
  · rw [hs] at hid
    exact (Option.some.inj hid).symm
  · rw [hn] at hid
    exact (Option.some.inj hid).symm
  · rw [hs] at hname
    exact (Option.some.inj hname).symm
  · rw [hn] at hname
    exact (Option.some.inj hname).symm
  · rw [hb] at hadmin
    exact (Option.some.inj hadmin).symm
  · rw [hn] at hadmin
    exact (Option.some.inj hadmin).symm

/-- The records a list of pool bodies stands for. -/
theorem records_of_pools (ms : List (List (String × JSON)))
    (htyped : ∀ m ∈ ms, ∃ p, poolOf m = some p) :
    ∃ ps, List.Forall₂ (fun m p => poolOf m = some p) ms ps := by
  induction ms with
  | nil => exact ⟨[], List.Forall₂.nil⟩
  | cons m ms ih =>
    obtain ⟨p, hp⟩ := htyped m (List.mem_cons_self _ _)
    obtain ⟨ps, hps⟩ := ih (fun x hx => htyped x (List.mem_cons_of_mem _ hx))
    exact ⟨p :: ps, List.Forall₂.cons hp hps⟩

/-- A pool collection body whose entries stand for the records `ps` decodes to `ps`. -/
theorem extractPools_of_records (ms : List (List (String × JSON))) (ps : List Pools.Pool)
    (links : JSON) (h : List.Forall₂ (fun m p => poolOf m = some p) ms ps) :
    Pools.ExtractPools
      ⟨pageOf (.parsed (.object [("pools", .array (ms.map JSON.object)),
        ("pools_links", links)]))⟩ = (ps, none) := by
  have hdec : ∀ name i, decodeElems Pools.Pool.zero Pools.decodePool name i
      (ms.map JSON.object) = (ps, []) := by
    intro name i
    apply decodeElems_forall₂
    rw [List.forall₂_map_left_iff]
    exact List.Forall₂.imp
      (fun m p hp n => by simp [decode, decodePool_of_poolOf m p n hp]) h
  simp [Pools.ExtractPools, pageOf, LinkedPageBase.Body, Decode, decode, decodeWrapper,
    decodeField, lookupField, List.lookup, decodeSlice, hdec, toError]

/-- C10: for every collection body `{"pools": [m1, ..., mn], "pools_links": links}` in
which each `mi` is a mapping that stands for a record (declared keys carry values of the
declared kind) and whose other keys are not declared by `Pool`, `ExtractPools` returns no
error and exactly `n` records in wire order; record `i` has `ID`, `Name` and
`AdminStateUp` equal to the values of `id`, `name` and `admin_state_up` of `mi` when
present and the zero value when the key is omitted; the undeclared keys are ignored: the
bodies without them give the same records. -/
theorem extractPools_round_trip (ms : List (List (String × JSON))) (links : JSON)
    (htyped : ∀ m ∈ ms, ∃ p, poolOf m = some p) (hkeys : ∀ m ∈ ms, wireKeysOnly m) :
    ∃ ps, Pools.ExtractPools
        ⟨pageOf (.parsed (.object [("pools", .array (ms.map JSON.object)),
          ("pools_links", links)]))⟩ = (ps, none)
      ∧ ps.length = ms.length
      ∧ List.Forall₂ roundTrip ms ps
      ∧ Pools.ExtractPools
        ⟨pageOf (.parsed (.object [("pools", .array ((ms.map declaredOnly).map JSON.object)),
          ("pools_links", links)]))⟩ = (ps, none) := by
  obtain ⟨ps, hps⟩ := records_of_pools ms htyped
  have hmem : List.Forall₂ (fun m p => m ∈ ms ∧ poolOf m = some p) ms ps := by
    have haux : ∀ (l : List (List (String × JSON))) (qs : List Pools.Pool),
        List.Forall₂ (fun m p => poolOf m = some p) l qs → (∀ m ∈ l, m ∈ ms) →
        List.Forall₂ (fun m p => m ∈ ms ∧ poolOf m = some p) l qs := by
      intro l qs hl
      induction hl with
      | nil => exact fun _ => List.Forall₂.nil
      | cons hx _ ih =>
        exact fun hsub => List.Forall₂.cons ⟨hsub _ (List.mem_cons_self _ _), hx⟩
          (ih (fun m hm => hsub m (List.mem_cons_of_mem _ hm)))
    exact haux ms ps hps (fun _ hm => hm)
  refine ⟨ps, extractPools_of_records ms ps links hps, hps.length_eq.symm, ?_, ?_⟩
  · exact List.Forall₂.imp (fun m p hmp => roundTrip_of_poolOf m p hmp.2 (hkeys m hmp.1)) hmem
  · apply extractPools_of_records
    rw [List.forall₂_map_left_iff]
    exact List.Forall₂.imp
      (fun m p hmp => by rw [poolOf_declaredOnly m (hkeys m hmp.1)]; exact hmp.2) hmem

/-- C10 at the body `{"pools": [{"id":"p1","name":"N","admin_state_up":true}],
"pools_links": []}`: one record, with `ID` = `p1`, `Name` = `N`, `AdminStateUp` = `true`. -/
theorem extractPools_round_trip_witness :
    ∃ p, Pools.ExtractPools
        ⟨pageOf (.parsed (.object [("pools", .array [.object examplePool]),
          ("pools_links", .array [])]))⟩ = ([p], none)
      ∧ p.ID = "p1" ∧ p.Name = "N" ∧ p.AdminStateUp = true := by
  obtain ⟨ps, h1, _, h3, _⟩ := extractPools_round_trip [examplePool] (.array [])
    (fun m hm => by rw [List.mem_singleton] at hm; subst hm; exact ⟨_, rfl⟩)
    (fun m hm => by rw [List.mem_singleton] at hm; subst hm; unfold wireKeysOnly; decide)
  cases h3 with
  | cons hp hrest =>
    cases hrest
    exact ⟨_, h1, hp.1 "p1" rfl, hp.2.2.1 "N" rfl, hp.2.2.2.2.1 true rfl⟩

/-- C11: for every response that was read with no error, `PageResultFrom` depends on the
`Content-Type` header alone.  When the header begins with `application/json`: bytes that
parse to a value give a `PageResult` whose body is that value, with the header and the
URL of the response and no error; bytes that do not parse give the error of the parser
and the empty `PageResult`.  When the header does not begin with `application/json`, and
in particular when it is missing, the body is the raw bytes, unparsed and unchanged, with
no error. -/
theorem pageResultFrom_by_content_type (unmarshal : List Nat → Except GoError JSON)
    (raw : List Nat) (header : List (String × List String)) (url : String) :
    (Pagination.HasPrefix (Pagination.Get header "Content-Type") "application/json" = true →
      (∀ j, unmarshal raw = .ok j →
        Pagination.PageResultFrom unmarshal ⟨(raw, none), header, url⟩
          = (⟨⟨Body.parsed j, header, none⟩, url⟩, none))
      ∧ (∀ e, unmarshal raw = .error e →
        Pagination.PageResultFrom unmarshal ⟨(raw, none), header, url⟩
          = (Pagination.emptyPageResult, some e)))
    ∧ (Pagination.HasPrefix (Pagination.Get header "Content-Type") "application/json" = false →
        Pagination.PageResultFrom unmarshal ⟨(raw, none), header, url⟩
          = (⟨⟨Body.raw raw, header, none⟩, url⟩, none))
    ∧ (header.lookup "Content-Type" = none →
        Pagination.PageResultFrom unmarshal ⟨(raw, none), header, url⟩
          = (⟨⟨Body.raw raw, header, none⟩, url⟩, none)) := by
  refine ⟨fun hct => ⟨fun j hj => ?_, fun e he => ?_⟩, fun hct => ?_, fun hmiss => ?_⟩
  · simp [Pagination.PageResultFrom, Pagination.PageResultFromParsed, hct, hj]
  · simp [Pagination.PageResultFrom, hct, he]
  · simp [Pagination.PageResultFrom, Pagination.PageResultFromParsed, hct]
  · have hct : Pagination.HasPrefix (Pagination.Get header "Content-Type") "application/json"
        = false := by
      simp only [Pagination.Get, hmiss]
      decide
    simp [Pagination.PageResultFrom, Pagination.PageResultFromParsed, hct]

/-- C11 at three concrete responses with the bytes of `{}`: the content type
`application/json; charset=UTF-8` with a parser that accepts the bytes, the same content
type with a parser that rejects them, and the content type `text/plain`. -/
theorem pageResultFrom_by_content_type_witness :
    Pagination.PageResultFrom (fun _ => .ok (JSON.object []))
        ⟨([123, 125], none), [("Content-Type", ["application/json; charset=UTF-8"])],
          "http://lb/pools"⟩
      = (⟨⟨Body.parsed (JSON.object []),
            [("Content-Type", ["application/json; charset=UTF-8"])], none⟩,
          "http://lb/pools"⟩, none)
    ∧ Pagination.PageResultFrom (fun _ => .error (GoError.other "unexpected end of JSON input"))
        ⟨([123], none), [("Content-Type", ["application/json"])], "http://lb/pools"⟩
      = (Pagination.emptyPageResult, some (GoError.other "unexpected end of JSON input"))
    ∧ Pagination.PageResultFrom (fun _ => .ok (JSON.object []))
        ⟨([123, 125], none), [("Content-Type", ["text/plain"])], "http://lb/pools"⟩
      = (⟨⟨Body.raw [123, 125], [("Content-Type", ["text/plain"])], none⟩,
          "http://lb/pools"⟩, none) :=
  ⟨((pageResultFrom_by_content_type (fun _ => .ok (JSON.object [])) [123, 125]
      [("Content-Type", ["application/json; charset=UTF-8"])] "http://lb/pools").1
      (by decide)).1 (JSON.object []) rfl,
   ((pageResultFrom_by_content_type
      (fun _ => .error (GoError.other "unexpected end of JSON input")) [123]
      [("Content-Type", ["application/json"])] "http://lb/pools").1
      (by decide)).2 (GoError.other "unexpected end of JSON input") rfl,
   (pageResultFrom_by_content_type (fun _ => .ok (JSON.object [])) [123, 125]
      [("Content-Type", ["text/plain"])] "http://lb/pools").2.1 (by decide)⟩

/-- A pool collection body in which the decoder finds, for `pools`, an array of pool
bodies that stand for the records `ps`, decodes to `ps` with no error. -/
theorem extractPools_of_lookup (kvs : List (String × JSON))
    (ms : List (List (String × JSON))) (ps : List Pools.Pool)
    (hkey : lookupField kvs "pools" = some (.array (ms.map JSON.object)))
    (h : List.Forall₂ (fun m p => poolOf m = some p) ms ps) :
    Pools.ExtractPools ⟨pageOf (.parsed (.object kvs))⟩ = (ps, none) := by
  have hdec : ∀ name i, decodeElems Pools.Pool.zero Pools.decodePool name i
      (ms.map JSON.object) = (ps, []) := by
    intro name i
    apply decodeElems_forall₂
    rw [List.forall₂_map_left_iff]
    exact List.Forall₂.imp
      (fun m p hp n => by simp [decode, decodePool_of_poolOf m p n hp]) h
  simp [Pools.ExtractPools, pageOf, LinkedPageBase.Body, Decode, decode, decodeWrapper,
    decodeField, hkey, decodeSlice, hdec, toError]

/-- Stub preservation for one pool body that stands for a record. -/
theorem stubsPreserved_of_poolOf (m : List (String × JSON)) (p : Pools.Pool)
    (h : poolOf m = some p) : stubsPreserved m p := by
  obtain ⟨_, _, _, hm, hl, hlb⟩ := poolOf_fields m p h
  refine ⟨fun stubs hs => ?_, fun stubs hs => ?_, fun stubs hs => ?_⟩
  · rw [hs] at hm
    exact wireAll_stub_of_objects stubs p.Members hm
  · rw [hs] at hl
    exact wireAll_stub_of_objects stubs p.Listeners hl
  · rw [hs] at hlb
    exact wireAll_stub_of_objects stubs p.Loadbalancers hlb

/-- C9, as stated, fails: the pool body `{"id": "p1", "members": [{"id": "m1"},
{"id": "m2"}], "name": 5}` carries two member stubs, and decoding does not succeed:
`Extract` returns no record and a decode error for `Pool.Name`, and `ExtractPools` returns
a decode error for `pools[0].Name`. -/
theorem pool_stubs_decode_fails_on_malformed_sibling :
    lookupField exampleStubPoolBadName "members"
      = some (.array [.object [("id", .string "m1")], .object [("id", .string "m2")]])
    ∧ Pools.commonResult.Extract
        ⟨⟨.parsed (.object [("pool", .object exampleStubPoolBadName)]), [], none⟩⟩
      = (none, some (GoError.decode ["Pool.Name"]))
    ∧ (Pools.ExtractPools
        ⟨pageOf (.parsed (.object [("pools", .array [.object exampleStubPoolBadName])]))⟩).2
      = some (GoError.decode ["pools[0].Name"]) :=
  ⟨rfl, rfl, rfl⟩

/-- C9 (amended): for every pool collection page in which the decoder finds, for `pools`,
a sequence of any number of pool bodies that each stand for a record (every declared key
that is found carries a value of the declared kind; sibling keys may be missing),
`ExtractPools` returns no error and one record for every pool body, in wire order; for
every pool body and its record, `Extract` on the single-resource body returns that
record and no error, and when `members`, `listeners` or `loadbalancers` of the body is a
sequence of stub mappings, the field of the record is that sequence of mappings: same
length, same order, and entry by entry the same key/value pairs. -/
theorem pool_reference_stubs_preserved (kvs : List (String × JSON))
    (ms : List (List (String × JSON))) (header : List (String × List String))
    (hkey : lookupField kvs "pools" = some (.array (ms.map JSON.object)))
    (htyped : ∀ m ∈ ms, ∃ p, poolOf m = some p) :
    ∃ ps, Pools.ExtractPools ⟨pageOf (.parsed (.object kvs))⟩ = (ps, none)
      ∧ ps.length = ms.length
      ∧ List.Forall₂ (fun m p =>
          Pools.commonResult.Extract
              ⟨⟨.parsed (.object [("pool", .object m)]), header, none⟩⟩ = (some p, none)
          ∧ stubsPreserved m p) ms ps := by
  obtain ⟨ps, hps⟩ := records_of_pools ms htyped
  refine ⟨ps, extractPools_of_lookup kvs ms ps hkey hps, hps.length_eq.symm, ?_⟩
  exact List.Forall₂.imp
    (fun m p hmp =>
      ⟨decode_pointer_found _ _ _ _ _ _ rfl (fun name => decodePool_of_poolOf m p name hmp),
       stubsPreserved_of_poolOf m p hmp⟩) hps

/-- C9 (amended) at a page of two pools: the first carries the member stubs
`[{"id":"m1"},{"id":"m2"}]`, one listener stub and an undeclared key, the second one
member stub and one load balancer stub; both records keep their stubs. -/
theorem pool_reference_stubs_preserved_witness :
    ∃ ps, Pools.ExtractPools
        ⟨pageOf (.parsed (.object
          [("pools", .array [.object exampleStubPool, .object exampleStubPool2]),
           ("pools_links", .array [])]))⟩ = (ps, none)
      ∧ ps.map (fun p => p.Members)
          = [[[("id", .string "m1")], [("id", .string "m2")]], [[("id", .string "m3")]]]
      ∧ ps.map (fun p => p.Listeners) = [[[("id", .string "l1")]], []]
      ∧ ps.map (fun p => p.Loadbalancers) = [[], [[("id", .string "lb1")]]] := by
  obtain ⟨ps, h1, _, h3⟩ := pool_reference_stubs_preserved
    [("pools", .array [.object exampleStubPool, .object exampleStubPool2]),
     ("pools_links", .array [])]
    [exampleStubPool, exampleStubPool2] [] rfl
    (fun m hm => by
      rcases List.mem_cons.mp hm with h | h
      · subst h; exact ⟨_, rfl⟩
      · rw [List.mem_singleton] at h; subst h; exact ⟨_, rfl⟩)
  cases h3 with
  | cons hp hrest =>
    cases hrest with
    | cons hq hnil =>
      cases hnil
      have e1 := (Prod.mk.inj hp.1).1
      have e2 := (Prod.mk.inj hq.1).1
      refine ⟨_, h1, ?_, ?_, ?_⟩
      · simp only [List.map_cons, List.map_nil]
        rw [hp.2.1 [[("id", .string "m1")], [("id", .string "m2")]] rfl,
          hq.2.1 [[("id", .string "m3")]] rfl]
      · simp only [List.map_cons, List.map_nil]
        rw [hp.2.2.1 [[("id", .string "l1")]] rfl, ← Option.some.inj e2]
        rfl
      · simp only [List.map_cons, List.map_nil]
        rw [hq.2.2.2 [[("id", .string "lb1")]] rfl, ← Option.some.inj e1]
        rfl
